import Mathlib

/-!
# ablate: domain construction, field registration and low-Mach solver wiring

A shallow embedding of

* `ablateLibrary/domain/domain.cpp` (`Domain`, its constructor, `RegisterField`,
  `GetSubDomain`, `InitializeSubDomains`),
* `ablateLibrary/finiteElement/lowMachFlowSolver.cpp` (`LowMachFlowSolver::Setup`,
  `zero`, `constant`, `createPressureNullSpace`),
* `src/monitors/faceMonitor.cpp` (`FaceMonitor::Register`).

The wrapped PDE toolkit is represented by the observable state the code above reads and
writes: the labels and the field list of a `DM`, the registrations held by a problem object,
and the arguments of each projection call.  `PetscInt` is `Int`.  A C++ exception is a value
of `Exception`; a statement whose behaviour the language leaves undefined is the outcome
`Outcome.undefined`.
-/

set_option autoImplicit false

namespace ablate

/-- The two standard exception classes thrown by the embedded code, with their message. -/
inductive Exception where
  | invalid_argument (what : String)
  | runtime_error (what : String)
  deriving DecidableEq, Repr

/-- Is the exception a `std::invalid_argument`? -/
def Exception.isInvalidArgument : Exception → Bool
  | .invalid_argument _ => true
  | .runtime_error _ => false

/-- Is the exception a `std::runtime_error`? -/
def Exception.isRuntimeError : Exception → Bool
  | .invalid_argument _ => false
  | .runtime_error _ => true

/-- How a call ends: it returns a value, it throws, or it executes a statement with undefined
behaviour (such as `front()` of an empty `std::vector`). -/
inductive Outcome (α : Type) where
  | returned (a : α)
  | raised (e : Exception)
  | undefined
  deriving DecidableEq, Repr

namespace domain

/-- A `domain::Region`: the name of a label and the value inside it. -/
structure Region where
  name : String
  value : Int
  deriving DecidableEq, Repr

/-- The enumeration `FieldLocation` (declared in `fieldDescription.hpp`).  The constructor of
`Domain` switches on `SOL`, `AUX` and a `default` branch, so a third shape stands for every
other value an object of the enumeration can hold. -/
inductive FieldLocation where
  | SOL
  | AUX
  | other (raw : Int)
  deriving DecidableEq, Repr

/-- The members of `FieldDescription` read by `domain.cpp`. -/
structure FieldDescription where
  name : String
  components : List String
  location : FieldLocation
  region : Option Region
  deriving DecidableEq, Repr

/-- A toolkit object handle (`PetscObject`), identified by its name. -/
structure PetscObject where
  name : String
  numberComponents : Int
  deriving DecidableEq, Repr

/-- A mesh label handle (`DMLabel`), identified by its name. -/
structure DMLabel where
  name : String
  deriving DecidableEq, Repr

/-- The part of a toolkit mesh object `DM` that `domain.cpp` observes: its dimension, the
names of the labels it contains, and its fields, each with the label it was added under. -/
structure DM where
  dim : Int
  labels : List String
  fields : List (Option DMLabel × PetscObject)
  deriving DecidableEq, Repr

/-- A recorded `Field` with the members `domain.cpp` reads back (`name`, `numberComponents`,
`components`, `id`). -/
structure Field where
  name : String
  numberComponents : Int
  components : List String
  id : Int
  deriving DecidableEq, Repr

/-- The call `Field::FromFieldDescription(fieldDescription, id)`. -/
def Field.FromFieldDescription (fieldDescription : FieldDescription) (id : Int) : Field :=
  { name := fieldDescription.name
    numberComponents := (fieldDescription.components.length : Int)
    components := fieldDescription.components
    id := id }

/-- A `SubDomain` as the constructor of `Domain` builds it: the index of its DS and the
auxiliary field descriptions it was handed. -/
structure SubDomain where
  ds : Int
  auxFields : List FieldDescription
  deriving DecidableEq, Repr

/-- A solution vector handle (`Vec`). -/
structure Vec where
  name : String
  deriving DecidableEq, Repr

/-- What `domain.cpp` calls and does not define: methods of other classes of the library and
answers of the toolkit, taken as parameters. -/
structure Externals where
  /-- The method `SubDomain::InRegion`. -/
  InRegion : SubDomain → Region → Bool
  /-- The method `Region::ToString`, used in a message only. -/
  RegionToString : Region → String
  /-- The method `FieldDescription::DecompressComponents(dim)`, acting on the components. -/
  DecompressComponents : Int → List String → List String
  /-- The method `FieldDescription::CreatePetscField(dm)`. -/
  CreatePetscField : FieldDescription → DM → PetscObject
  /-- The error code the toolkit returns from `DMAddField(dm, label, field)`. -/
  DMAddFieldCode : DM → Option DMLabel → PetscObject → Int
  /-- The number of DS the toolkit reports after `DMCreateDS`. -/
  numberDS : DM → Int
  /-- The exception `Domain::GetField(name)` throws when no recorded field has that name. -/
  GetFieldException : String → Exception
  /-- The exception `>> checkError` throws when a toolkit call returns a nonzero code. -/
  petscError : Exception

/-- The members of `Domain`. -/
structure Domain where
  dm : DM
  name : String
  fields : List Field
  subDomains : List SubDomain
  solField : Option Vec
  deriving DecidableEq, Repr

/-- The toolkit call `DMGetLabel(dm, name, &label)`: the label of that name, or null. -/
def DMGetLabel (dm : DM) (name : String) : Option DMLabel :=
  if name ∈ dm.labels then some { name := name } else none

/-- The toolkit call `DMAddField(dm, label, field)`: returns the error code and the mesh,
which holds one more field exactly when the code is 0. -/
def DMAddField (ext : Externals) (dm : DM) (label : Option DMLabel) (field : PetscObject) :
    Int × DM :=
  let code := ext.DMAddFieldCode dm label field
  if code = 0 then (code, { dm with fields := dm.fields ++ [(label, field)] }) else (code, dm)

/-- The toolkit call `DMGetNumFields(dm, &n)`. -/
def DMGetNumFields (dm : DM) : Int :=
  (dm.fields.length : Int)

/-- The loop of `Domain::GetSubDomain` over `subDomains` (lines 111-115): the first subDomain
for which `InRegion(*region)` holds, if the loop returns. -/
def marchSubDomains (ext : Externals) (region : Region) : List SubDomain → Option SubDomain
  | [] => none
  | subDomain :: rest =>
    if ext.InRegion subDomain region then some subDomain
    else marchSubDomains ext region rest

/-- The method `Domain::GetSubDomain(region)` (lines 107-125). -/
def Domain.GetSubDomain (ext : Externals) (self : Domain) (region : Option Region) :
    Outcome SubDomain :=
  match region with
  | some r =>
    match marchSubDomains ext r self.subDomains with
    | some subDomain => .returned subDomain
    | none =>
      .raised (.runtime_error ("Unable to locate subDomain for region " ++ ext.RegionToString r))
  | none =>
    if self.subDomains.length > 1 then
      .raised (.runtime_error "More than one DS was created, the region is expected to be defined.")
    else
      -- `subDomains.front()`
      match self.subDomains with
      | subDomain :: _ => .returned subDomain
      | [] => .undefined

/-- The method `Domain::GetDimensions` (lines 83-87). -/
def Domain.GetDimensions (self : Domain) : Int :=
  self.dm.dim

/-- The label lookup of `Domain::RegisterField` (lines 61-68): null without a region, the
label of the region when the mesh has it, `std::invalid_argument` when it has not. -/
def lookUpLabel (dm : DM) (fieldDescription : FieldDescription) :
    Except Exception (Option DMLabel) :=
  match fieldDescription.region with
  | some region =>
    match DMGetLabel dm region.name with
    | some label => .ok (some label)
    | none =>
      .error (.invalid_argument
        ("Cannot locate label " ++ region.name ++ " for field " ++ fieldDescription.name))
  | none => .ok none

/-- The method `Domain::RegisterField` (lines 55-81).  The result is the domain after the call
and the exception thrown, if any.  The value `DMAddField` returns is dropped, as in line 74. -/
def Domain.RegisterField (ext : Externals) (self : Domain)
    (fieldDescription : FieldDescription) : Domain × Option Exception :=
  if fieldDescription.location ≠ FieldLocation.SOL then
    (self, some (.invalid_argument
      "The field must be FieldLocation::SOL to be registered with the domain"))
  else
    match lookUpLabel self.dm fieldDescription with
    | .error e => (self, some e)
    | .ok label =>
      let petscField := ext.CreatePetscField fieldDescription self.dm
      let added := DMAddField ext self.dm label petscField
      ({ self with
          dm := added.2
          fields := self.fields ++
            [Field.FromFieldDescription fieldDescription (self.fields.length : Int)] }, none)

/-- A `FieldDescriptor`, represented by the list its `GetFields()` returns. -/
abbrev FieldDescriptor := List FieldDescription

/-- A `modifiers::Modifier`, represented by what its `Modify(dm)` does to the mesh. -/
abbrev Modifier := DM → DM

/-- The call `fieldDescription->DecompressComponents(dim)`. -/
def FieldDescription.DecompressComponents (ext : Externals) (dim : Int)
    (fieldDescription : FieldDescription) : FieldDescription :=
  { fieldDescription with
      components := ext.DecompressComponents dim fieldDescription.components }

/-- The inner loop of the constructor (lines 20-32) over the descriptions of one descriptor.
It carries the domain and `allAuxFields`, and stops at the first exception. -/
def registerDescriptions (ext : Externals) :
    Domain → List FieldDescription → List FieldDescription →
      Except Exception (Domain × List FieldDescription)
  | self, allAuxFields, [] => .ok (self, allAuxFields)
  | self, allAuxFields, fieldDescription0 :: rest =>
    let fieldDescription := fieldDescription0.DecompressComponents ext self.GetDimensions
    match fieldDescription.location with
    | .SOL =>
      match self.RegisterField ext fieldDescription with
      | (self1, none) => registerDescriptions ext self1 allAuxFields rest
      | (_, some e) => .error e
    | .AUX => registerDescriptions ext self (allAuxFields ++ [fieldDescription]) rest
    | .other _ =>
      .error (.invalid_argument ("Unknown Field Location for " ++ fieldDescription.name))

/-- The outer loop of the constructor (line 19) over the field descriptors. -/
def registerDescriptors (ext : Externals) :
    Domain → List FieldDescription → List FieldDescriptor →
      Except Exception (Domain × List FieldDescription)
  | self, allAuxFields, [] => .ok (self, allAuxFields)
  | self, allAuxFields, fieldDescriptor :: rest =>
    match registerDescriptions ext self allAuxFields fieldDescriptor with
    | .ok (self1, allAuxFields1) => registerDescriptors ext self1 allAuxFields1 rest
    | .error e => .error e

/-- The loop of lines 43-45: one subDomain for each `ds` in `0 .. numberDS-1`, each handed
`allAuxFields`. -/
def createSubDomains (numberDS : Int) (allAuxFields : List FieldDescription) :
    List SubDomain :=
  (List.range numberDS.toNat).map fun (ds : Nat) => { ds := (ds : Int), auxFields := allAuxFields }

/-- The loop of lines 13-15: every modifier applied to the mesh, in the given order. -/
def applyModifiers (modifiers : List Modifier) (dm : DM) : DM :=
  modifiers.foldl (fun dm modifier => modifier dm) dm

/-- The constructor `Domain::Domain` (lines 10-46): the constructed domain, or the exception
that leaves it. -/
def Domain.create (ext : Externals) (dmIn : DM) (name : String)
    (fieldDescriptors : List FieldDescriptor) (modifiers : List Modifier) :
    Except Exception Domain :=
  let dm := applyModifiers modifiers dmIn
  let self : Domain := { dm := dm, name := name, fields := [], subDomains := [], solField := none }
  match registerDescriptors ext self [] fieldDescriptors with
  | .error e => .error e
  | .ok (self1, allAuxFields) =>
    .ok { self1 with subDomains := createSubDomains (ext.numberDS self1.dm) allAuxFields }

/-- Any sequence of `RegisterField` calls on one domain; a call that throws leaves the domain
as `RegisterField` left it and the next call follows (the caller catches). -/
def registerSequence (ext : Externals) : Domain → List FieldDescription → Domain
  | self, [] => self
  | self, fieldDescription :: rest =>
    registerSequence ext (self.RegisterField ext fieldDescription).1 rest

/-- A projection callback pointer (`mathFunctions::PetscFunction`). -/
structure PetscFunction where
  name : String
  deriving DecidableEq, Repr

/-- A callback context pointer (`void*`). -/
structure Context where
  name : String
  deriving DecidableEq, Repr

/-- What `InitializeSubDomains` reads of a `mathFunctions::FieldFunction`: `GetName()`,
`GetRegion()`, and the pointers `GetSolutionField().GetPetscFunction()` and
`GetSolutionField().GetContext()`, either of which may be null. -/
structure FieldFunction where
  name : String
  region : Option Region
  petscFunction : Option PetscFunction
  context : Option Context
  deriving DecidableEq, Repr

/-- The arguments of one call
`DMProjectFunctionLabel(dm, 0.0, label, numIds, ids, -1, nullptr, funcs, ctxs, INSERT_VALUES,
X)`. -/
structure ProjectionCall where
  label : Option DMLabel
  numIds : Int
  ids : List Int
  funcs : List (Option PetscFunction)
  ctxs : List (Option Context)
  X : Option Vec
  deriving DecidableEq, Repr

/-- The method `Domain::GetField(name)` of `domain.hpp`: the recorded field of that name, if
there is one. -/
def Domain.GetField (self : Domain) (name : String) : Option Field :=
  self.fields.find? fun field => field.name == name

/-- The toolkit call `DMGetField(dm, f, &label, &field)`: the label and the object of field
`f`; nothing when `f` is not the index of a field (the call then returns an error code). -/
def DMGetField (dm : DM) (f : Int) : Option (Option DMLabel × PetscObject) :=
  if 0 ≤ f then dm.fields[f.toNat]? else none

/-- The body of the loop of lines 146-171 for one initialization: the projection call it
makes.  An index outside `0 .. numberFields-1` into the two vectors is undefined behaviour. -/
def projectInitialization (ext : Externals) (self : Domain) (numberFields : Int)
    (initialization : FieldFunction) : Outcome ProjectionCall :=
  let fieldFunctions : List (Option PetscFunction) := List.replicate numberFields.toNat none
  let fieldContexts : List (Option Context) := List.replicate numberFields.toNat none
  match self.GetField initialization.name with
  | none => .raised (ext.GetFieldException initialization.name)
  | some fieldId =>
    if 0 ≤ fieldId.id ∧ fieldId.id < numberFields then
      let fieldContexts := fieldContexts.set fieldId.id.toNat initialization.context
      let fieldFunctions := fieldFunctions.set fieldId.id.toNat initialization.petscFunction
      match initialization.region with
      | some region =>
        .returned
          { label := DMGetLabel self.dm region.name, numIds := 1, ids := [region.value]
            funcs := fieldFunctions, ctxs := fieldContexts, X := self.solField }
      | none =>
        match DMGetField self.dm fieldId.id with
        | none => .raised ext.petscError
        | some (fieldLabel, _) =>
          .returned
            { label := fieldLabel, numIds := 1, ids := [if fieldLabel.isSome then 1 else 0]
              funcs := fieldFunctions, ctxs := fieldContexts, X := self.solField }
    else .undefined

/-- The loop of lines 146-171 of `Domain::InitializeSubDomains`: the projection calls made, in
order, and how the loop ends. -/
def projectInitializations (ext : Externals) (self : Domain) (numberFields : Int) :
    List FieldFunction → List ProjectionCall × Outcome Unit
  | [] => ([], .returned ())
  | initialization :: rest =>
    match projectInitialization ext self numberFields initialization with
    | .returned call =>
      let later := projectInitializations ext self numberFields rest
      (call :: later.1, later.2)
    | .raised e => ([], .raised e)
    | .undefined => ([], .undefined)

/-- Lines 143-171 of `Domain::InitializeSubDomains`: `DMGetNumFields`, then the loop. -/
def Domain.setInitialConditions (ext : Externals) (self : Domain)
    (initializations : List FieldFunction) : List ProjectionCall × Outcome Unit :=
  projectInitializations ext self (DMGetNumFields self.dm) initializations

end domain

namespace finiteElement

open domain

/-- A stand-in for `PetscReal` and `PetscScalar`; only the literals 0.0 and 1.0 occur and no
arithmetic is done on them. -/
abbrev PetscScalar := Rat

/-- The enumerators of `lowMachFlow.h` used by the solver; their values are parameters. -/
structure LowMachFlowEnumerators where
  VEL : Int
  PRES : Int
  TEMP : Int
  VTEST : Int
  WTEST : Int
  QTEST : Int
  TOTAL_LOW_MACH_FLOW_PARAMETERS : Nat

/-- The residual and Jacobian kernels of `lowMachFlow.h` whose addresses `Setup` registers. -/
inductive Kernel where
  | LowMachFlow_vIntegrandTestFunction
  | LowMachFlow_vIntegrandTestGradientFunction
  | LowMachFlow_wIntegrandTestFunction
  | LowMachFlow_wIntegrandTestGradientFunction
  | LowMachFlow_qIntegrandTestFunction
  | LowMachFlow_g0_vu
  | LowMachFlow_g1_vu
  | LowMachFlow_g3_vu
  | LowMachFlow_g2_vp
  | LowMachFlow_g0_vT
  | LowMachFlow_g0_qu
  | LowMachFlow_g1_qu
  | LowMachFlow_g0_qT
  | LowMachFlow_g1_qT
  | LowMachFlow_g0_wu
  | LowMachFlow_g0_wT
  | LowMachFlow_g1_wT
  | LowMachFlow_g3_wT
  deriving DecidableEq, Repr

/-- The arguments of one call `PetscDSSetResidual(prob, f, f0, f1)`. -/
structure ResidualCall where
  f : Int
  f0 : Option Kernel
  f1 : Option Kernel
  deriving DecidableEq, Repr

/-- The arguments of one call `PetscDSSetJacobian(prob, f, g, g0, g1, g2, g3)`. -/
structure JacobianCall where
  f : Int
  g : Int
  g0 : Option Kernel
  g1 : Option Kernel
  g2 : Option Kernel
  g3 : Option Kernel
  deriving DecidableEq, Repr

/-- The problem object `PetscDS`, as the registrations made on it, oldest first, and the
constants it was last given (count and array). -/
structure PetscDS where
  residuals : List ResidualCall
  jacobians : List JacobianCall
  constants : Option (Int × List PetscScalar)
  deriving DecidableEq, Repr

/-- The state `LowMachFlowSolver::Setup` reads and writes: the `subId` of each field of its
subDomain by name, the problem object of the subDomain mesh, and the mesh fields that carry a
composed `"nullspace"` object. -/
structure SolverState where
  fields : List (String × Int)
  prob : PetscDS
  nullspace : List Int
  deriving DecidableEq, Repr

/-- What `lowMachFlowSolver.cpp` calls and does not define, taken as parameters. -/
structure SolverExternals where
  /-- The method `FiniteElementSolver::Setup`: the state it leaves and what it throws. -/
  FiniteElementSolverSetup : SolverState → SolverState × Option Exception
  /-- The exception `SubDomain::GetField(name)` throws when the field does not exist. -/
  GetFieldException : String → Exception
  /-- The value `parameters->Fill` stores at each index of the parameter array. -/
  Fill : Nat → PetscScalar

/-- The call `subDomain->GetField(name).subId`. -/
def SolverState.GetFieldSubId (self : SolverState) (name : String) : Option Int :=
  self.fields.lookup name

/-- One of the three checks of lines 16-24, for the field of that name and the enumerator it is
expected at; `what` is the message, given the `subId` found.  The result is the exception
thrown, if any. -/
def checkSubId (sx : SolverExternals) (self : SolverState) (fieldName : String)
    (expected : Int) (what : Int → String) : Option Exception :=
  match self.GetFieldSubId fieldName with
  | none => some (sx.GetFieldException fieldName)
  | some subId => if expected ≠ subId then some (.invalid_argument (what subId)) else none

/-- The call `PetscDSSetResidual(prob, f, f0, f1)`. -/
def PetscDSSetResidual (prob : PetscDS) (f : Int) (f0 f1 : Option Kernel) : PetscDS :=
  { prob with residuals := prob.residuals ++ [{ f := f, f0 := f0, f1 := f1 }] }

/-- The call `PetscDSSetJacobian(prob, f, g, g0, g1, g2, g3)`. -/
def PetscDSSetJacobian (prob : PetscDS) (f g : Int) (g0 g1 g2 g3 : Option Kernel) : PetscDS :=
  { prob with
      jacobians := prob.jacobians ++ [{ f := f, g := g, g0 := g0, g1 := g1, g2 := g2, g3 := g3 }] }

/-- The call `PetscDSSetConstants(prob, numConstants, constants)`. -/
def PetscDSSetConstants (prob : PetscDS) (numConstants : Int) (constants : List PetscScalar) :
    PetscDS :=
  { prob with constants := some (numConstants, constants) }

/-- Lines 36-55 of `LowMachFlowSolver::Setup`: the wiring of the problem object. -/
def wireProblem (en : LowMachFlowEnumerators) (sx : SolverExternals) (prob : PetscDS) :
    PetscDS :=
  let prob := PetscDSSetResidual prob en.VTEST
    (some .LowMachFlow_vIntegrandTestFunction) (some .LowMachFlow_vIntegrandTestGradientFunction)
  let prob := PetscDSSetResidual prob en.WTEST
    (some .LowMachFlow_wIntegrandTestFunction) (some .LowMachFlow_wIntegrandTestGradientFunction)
  let prob := PetscDSSetResidual prob en.QTEST (some .LowMachFlow_qIntegrandTestFunction) none
  let prob := PetscDSSetJacobian prob en.VTEST en.VEL
    (some .LowMachFlow_g0_vu) (some .LowMachFlow_g1_vu) none (some .LowMachFlow_g3_vu)
  let prob := PetscDSSetJacobian prob en.VTEST en.PRES none none (some .LowMachFlow_g2_vp) none
  let prob := PetscDSSetJacobian prob en.VTEST en.TEMP (some .LowMachFlow_g0_vT) none none none
  let prob := PetscDSSetJacobian prob en.QTEST en.VEL
    (some .LowMachFlow_g0_qu) (some .LowMachFlow_g1_qu) none none
  let prob := PetscDSSetJacobian prob en.QTEST en.TEMP
    (some .LowMachFlow_g0_qT) (some .LowMachFlow_g1_qT) none none
  let prob := PetscDSSetJacobian prob en.WTEST en.VEL (some .LowMachFlow_g0_wu) none none none
  let prob := PetscDSSetJacobian prob en.WTEST en.TEMP
    (some .LowMachFlow_g0_wT) (some .LowMachFlow_g1_wT) none (some .LowMachFlow_g3_wT)
  let parameterArray : List PetscScalar :=
    (List.range en.TOTAL_LOW_MACH_FLOW_PARAMETERS).map sx.Fill
  PetscDSSetConstants prob (en.TOTAL_LOW_MACH_FLOW_PARAMETERS : Int) parameterArray

/-- The method `LowMachFlowSolver::Setup` (lines 12-56), every toolkit call reporting
success: the state it leaves and the exception it throws, if any. -/
def LowMachFlowSolver.Setup (en : LowMachFlowEnumerators) (sx : SolverExternals)
    (self : SolverState) : SolverState × Option Exception :=
  match sx.FiniteElementSolverSetup self with
  | (self1, some e) => (self1, some e)
  | (self1, none) =>
    match checkSubId sx self1 "velocity" en.VEL (fun found =>
      "The velocity field subId is expected to be " ++ toString en.VEL ++
        ", but found to be " ++ toString found) with
    | some e => (self1, some e)
    | none =>
      match checkSubId sx self1 "pressure" en.PRES (fun found =>
        "The pressure field subId is expected to be " ++ toString en.PRES ++
          ", but found to be " ++ toString found) with
      | some e => (self1, some e)
      | none =>
        match checkSubId sx self1 "temperature" en.TEMP (fun found =>
          "The temperature field subId is expected to be " ++ toString en.TEMP ++
            ", but found to be " ++ toString found) with
        | some e => (self1, some e)
        | none =>
          ({ self1 with
              nullspace := self1.nullspace ++ [en.PRES]
              prob := wireProblem en sx self1.prob }, none)

/-- The two projection callbacks of lines 57-69, as the pointers stored in `funcs`. -/
inductive ProjectionFunction where
  | zero
  | constant
  deriving DecidableEq, Repr

/-- The loop `for (d = 0; d < Nc; ++d) u[d] = value;` on the memory `u` points to, with the
number of iterations left as fuel. -/
def fillLoop (value : PetscScalar) (Nc : Int) : Nat → Int → (Int → PetscScalar) →
    (Int → PetscScalar)
  | 0, _, u => u
  | fuel + 1, d, u =>
    if d < Nc then fillLoop value Nc fuel (d + 1) (Function.update u d value) else u

/-- The callback `zero` (lines 57-61): the memory after the call and the code returned. -/
def zero (_dim : Int) (Nc : Int) (u : Int → PetscScalar) : (Int → PetscScalar) × Int :=
  (fillLoop 0 Nc Nc.toNat 0 u, 0)

/-- The callback `constant` (lines 63-69): the memory after the call and the code returned. -/
def constant (_dim : Int) (Nc : Int) (u : Int → PetscScalar) : (Int → PetscScalar) × Int :=
  (fillLoop 1 Nc Nc.toNat 0 u, 0)

/-- Calling through a pointer stored in `funcs`. -/
def ProjectionFunction.call : ProjectionFunction → Int → Int → (Int → PetscScalar) →
    (Int → PetscScalar) × Int
  | .zero => finiteElement.zero
  | .constant => finiteElement.constant

/-- Lines 76-83 of `createPressureNullSpace(dm, ofield, nfield, nullSpace)`, the call
`DMGetNumFields` reporting success: the vector `funcs` later handed to
`DMProjectFunctionLabel`.  Writing `funcs[nfield]` outside the vector is undefined. -/
def createPressureNullSpace (dm : DM) (_ofield : Int) (nfield : Int) :
    Outcome (List ProjectionFunction) :=
  let numFields := DMGetNumFields dm
  let funcs : List ProjectionFunction := List.replicate numFields.toNat .zero
  if 0 ≤ nfield ∧ nfield < numFields then
    .returned (funcs.set nfield.toNat .constant)
  else .undefined

/-- The call of `createPressureNullSpace` made by
`LowMachFlowSolver::CompleteFlowInitialization` (line 140). -/
def LowMachFlowSolver.CompleteFlowInitialization (en : LowMachFlowEnumerators) (dm : DM) :
    Outcome (List ProjectionFunction) :=
  createPressureNullSpace dm en.PRES en.PRES

end finiteElement

namespace monitors

open domain

/-- A `solver::Solver` as `FaceMonitor::Register` sees it: a `BoundarySolver`, with the mesh of
its subDomain and its field boundary, or a solver of another class. -/
inductive Solver where
  | boundarySolver (dm : DM) (fieldBoundary : Region)
  | otherSolver (dm : DM)
  deriving DecidableEq, Repr

/-- The mesh `GetSubDomain().GetDM()` of a solver. -/
def Solver.GetDM : Solver → DM
  | .boundarySolver dm _ => dm
  | .otherSolver dm => dm

/-- The cast `std::dynamic_pointer_cast<BoundarySolver>(solver)`: the field boundary of the
boundary solver, null for a null pointer or a solver of another class. -/
def asBoundarySolver : Option Solver → Option Region
  | some (.boundarySolver _ fieldBoundary) => some fieldBoundary
  | _ => none

/-- The members of `FaceMonitor` (`faceMonitor.hpp`), with the component names and the name
given to the local section of the face mesh. -/
structure FaceMonitor where
  solver : Option Solver
  fluxNum : Int
  faceDM : Option DM
  faceVec : Option Vec
  componentNames : List (Int × Int × String)
  sectionName : Option String
  deriving DecidableEq, Repr

/-- The enumerator `Cats::regRate`. -/
def Cats.regRate : Int := 0

/-- The enumerator `Cats::hFlux`. -/
def Cats.hFlux : Int := 1

/-- The static method `FaceMonitor::AddField(dm, nameField, numComp)` (lines 21-30), the toolkit
calls reporting success: a finite-volume field of that name added without a label. -/
def FaceMonitor.AddField (dm : DM) (nameField : String) (numComp : Int) : DM :=
  { dm with fields := dm.fields ++ [(none, { name := nameField, numberComponents := numComp })] }

/-- The loop of lines 62-66: the names `hFlux_c` for `c` in `0 .. fluxNum-1`. -/
def heatFluxNames (hFlux : String) (fluxNum : Int) : List (Int × Int × String) :=
  (List.range fluxNum.toNat).map fun (c : Nat) =>
    (Cats.hFlux, (c : Int), hFlux ++ "_" ++ toString c)

/-- The method `FaceMonitor::Register` (lines 32-75), the toolkit calls reporting success.
`filter` is the toolkit call `DMPlexFilter(dm, label, 1, &faceDM)`.  The result is the monitor
after the call and the exception thrown, if any. -/
def FaceMonitor.Register (filter : DM → Option DMLabel → Int → DM) (self : FaceMonitor)
    (solverIn : Option Solver) : FaceMonitor × Option Exception :=
  -- `Monitor::Register(solverIn)` stores the solver
  let self := { self with solver := solverIn }
  match self.solver, asBoundarySolver self.solver with
  | some solver, some fieldBoundary =>
    let faceLabel := DMGetLabel solver.GetDM fieldBoundary.name
    let faceDM := filter solver.GetDM faceLabel 1
    let regRate := "regRate"
    let faceDM := FaceMonitor.AddField faceDM regRate 1
    let hFlux := "hFlux"
    let faceDM := FaceMonitor.AddField faceDM hFlux self.fluxNum
    ({ self with
        faceDM := some faceDM
        componentNames :=
          self.componentNames ++ [(Cats.regRate, 0, regRate)] ++ heatFluxNames hFlux self.fluxNum
        sectionName := some "FaceMonitor"
        faceVec := some { name := "faceVec" } }, none)
  | _, _ =>
    (self, some (.invalid_argument "The face monitor can only be used with the boundary solver."))

end monitors

namespace solver

open domain

/-- A `solver::Solver` as `Domain::InitializeSubDomains` uses it: its `GetRegion()`, and for each
of the virtual methods `Register`, `Setup` and `Initialize` what the call throws in the run at
hand, if it throws.  What the methods do to the solver and to the toolkit objects is not
represented; they do not write the members of the domain. -/
structure Solver where
  solverId : String
  region : Option Region
  Register : Option Exception
  Setup : Option Exception
  Initialize : Option Exception
  deriving DecidableEq, Repr

end solver

namespace domain

open solver

/-- A call made by `Domain::InitializeSubDomains`, with its receiver or argument. -/
inductive Event where
  | Register (solver : Solver) (subDomain : SubDomain)
  | Setup (solver : Solver)
  | CreateStructures
  | CreateSubDomainStructures (subDomain : SubDomain)
  | Project (call : ProjectionCall)
  | Initialize (solver : Solver)
  deriving DecidableEq, Repr

/-- The loop of lines 100-102 for one field, over the component indices `c`: the calls
`PetscSectionSetComponentName(section, field.id, c, field.components[c])`; nothing when
`field.components[c]` is read outside the vector. -/
def nameComponents (field : Field) : List Nat → Option (List (Int × Int × String))
  | [] => some []
  | c :: rest =>
    match field.components[c]? with
    | some name => (nameComponents field rest).map fun later => (field.id, (c : Int), name) :: later
    | none => none

/-- The loop of lines 98-104 over the recorded fields: components are named for the fields
with more than one component. -/
def nameFields : List Field → Option (List (Int × Int × String))
  | [] => some []
  | field :: rest =>
    match (if field.numberComponents > 1 then
        nameComponents field (List.range field.numberComponents.toNat) else some []) with
    | some names => (nameFields rest).map fun later => names ++ later
    | none => none

/-- The method `Domain::CreateStructures` (lines 89-105), the toolkit calls reporting success:
the domain with its solution vector, named `solution`, and the component names set in the
section of the mesh. -/
def Domain.CreateStructures (self : Domain) : Outcome (Domain × List (Int × Int × String)) :=
  match nameFields self.fields with
  | some names => .returned ({ self with solField := some { name := "solution" } }, names)
  | none => .undefined

/-- The loop of lines 129-131: for each solver in order, `GetSubDomain(solver->GetRegion())` and
then `solver->Register` with its result.  The result is the calls made and how the loop
ends. -/
def registerSolvers (ext : Externals) (self : Domain) : List Solver → List Event × Outcome Unit
  | [] => ([], .returned ())
  | solver :: rest =>
    match self.GetSubDomain ext solver.region with
    | .returned subDomain =>
      match solver.Register with
      | some e => ([Event.Register solver subDomain], .raised e)
      | none =>
        let later := registerSolvers ext self rest
        (Event.Register solver subDomain :: later.1, later.2)
    | .raised e => ([], .raised e)
    | .undefined => ([], .undefined)

/-- A loop `for (auto& solver : solvers) solver->method();` (lines 134-136 and 174-176): the
calls made and how the loop ends. -/
def callEach (method : Solver → Option Exception) (event : Solver → Event) :
    List Solver → List Event × Outcome Unit
  | [] => ([], .returned ())
  | solver :: rest =>
    match method solver with
    | some e => ([event solver], .raised e)
    | none =>
      let later := callEach method event rest
      (event solver :: later.1, later.2)

/-- The method `Domain::InitializeSubDomains` (lines 127-177), with
`SubDomain::CreateSubDomainStructures` returning: the calls made, in order, and how the method
ends. -/
def Domain.InitializeSubDomains (ext : Externals) (self : Domain) (solvers : List Solver)
    (initializations : List FieldFunction) : List Event × Outcome Unit :=
  match registerSolvers ext self solvers with
  | (registered, .returned ()) =>
    match callEach Solver.Setup Event.Setup solvers with
    | (setUp, .returned ()) =>
      match self.CreateStructures with
      | .returned (self1, _) =>
        let created :=
          Event.CreateStructures :: self1.subDomains.map Event.CreateSubDomainStructures
        match self1.setInitialConditions ext initializations with
        | (calls, .returned ()) =>
          let initialized := callEach Solver.Initialize Event.Initialize solvers
          (registered ++ setUp ++ created ++ calls.map Event.Project ++ initialized.1,
            initialized.2)
        | (calls, .raised e) =>
          (registered ++ setUp ++ created ++ calls.map Event.Project, .raised e)
        | (calls, .undefined) =>
          (registered ++ setUp ++ created ++ calls.map Event.Project, .undefined)
      | .raised e => (registered ++ setUp ++ [Event.CreateStructures], .raised e)
      | .undefined => (registered ++ setUp ++ [Event.CreateStructures], .undefined)
    | (setUp, .raised e) => (registered ++ setUp, .raised e)
    | (setUp, .undefined) => (registered ++ setUp, .undefined)
  | (registered, .raised e) => (registered, .raised e)
  | (registered, .undefined) => (registered, .undefined)

end domain

/-! ## Vocabulary used to state the properties -/

namespace domain

/-- The description is a solution field (`FieldLocation::SOL`). -/
def FieldDescription.isSolution (fieldDescription : FieldDescription) : Bool :=
  decide (fieldDescription.location = FieldLocation.SOL)

/-- The description is an auxiliary field (`FieldLocation::AUX`). -/
def FieldDescription.isAuxiliary (fieldDescription : FieldDescription) : Bool :=
  decide (fieldDescription.location = FieldLocation.AUX)

/-- The fields recorded for a list of descriptions, each with the id of its position counted
from `start`. -/
def recordedFrom (start : Nat) (descriptions : List FieldDescription) : List Field :=
  (List.enumFrom start descriptions).map fun p => Field.FromFieldDescription p.2 (p.1 : Int)

/-- The label of the description can be looked up in a mesh with these labels: it names no
region, or a region whose label is among them. -/
def FieldDescription.hasLabelIn (labels : List String) (fieldDescription : FieldDescription) :
    Bool :=
  match fieldDescription.region with
  | some region => decide (region.name ∈ labels)
  | none => true

/-- The id of every field of the list is its position in the list. -/
def idsArePositions (fields : List Field) : Prop :=
  fields.map Field.id = (List.range fields.length).map (fun (k : Nat) => (k : Int))

/-- What the projection call made for one initialization must look like, `field` being the
recorded field its name resolves to: both arrays have one entry for each field of the mesh,
carry the function and the context of the initialization at the index `field.id` and null at
every other index; one id is passed; the target is the solution vector of the domain; with a
region, the id is the value of the region and the label is looked up by its name; without
one, the label is the one field `field.id` of the mesh was added under, and the id is 1 when
there is such a label and 0 when it is null. -/
def projects (self : Domain) (initialization : FieldFunction) (field : Field)
    (call : ProjectionCall) : Prop :=
  (call.funcs.length : Int) = DMGetNumFields self.dm ∧
  (call.ctxs.length : Int) = DMGetNumFields self.dm ∧
  call.funcs[field.id.toNat]? = some initialization.petscFunction ∧
  call.ctxs[field.id.toNat]? = some initialization.context ∧
  (∀ j, j < call.funcs.length → j ≠ field.id.toNat →
    call.funcs[j]? = some none ∧ call.ctxs[j]? = some none) ∧
  call.numIds = 1 ∧ call.X = self.solField ∧
  (∀ region, initialization.region = some region →
    call.ids = [region.value] ∧ call.label = DMGetLabel self.dm region.name) ∧
  (initialization.region = none →
    ∃ fieldLabel fieldObject, DMGetField self.dm field.id = some (fieldLabel, fieldObject) ∧
      call.label = fieldLabel ∧ (fieldLabel ≠ none → call.ids = [1]) ∧
      (fieldLabel = none → call.ids = [0]))

/-- The phase of `InitializeSubDomains` a call belongs to, in the order of the source. -/
def Event.phase : Event → Nat
  | .Register _ _ => 0
  | .Setup _ => 1
  | .CreateStructures => 2
  | .CreateSubDomainStructures _ => 3
  | .Project _ => 4
  | .Initialize _ => 5

/-- The calls of the third phase when it runs to its end: `CreateStructures`, then
`CreateSubDomainStructures` on every subDomain in order. -/
def structureEvents (self : Domain) : List Event :=
  Event.CreateStructures :: self.subDomains.map Event.CreateSubDomainStructures

/-- The constructor can take the description on a mesh with these labels: it is auxiliary,
or it is a solution field whose label can be looked up. -/
def FieldDescription.registrable (labels : List String) (fieldDescription : FieldDescription) :
    Bool :=
  fieldDescription.isAuxiliary ||
    (fieldDescription.isSolution && fieldDescription.hasLabelIn labels)

/-- The descriptions the constructor walks through, in order: those of every descriptor, one
descriptor after the other, each decompressed for the dimension of the mesh. -/
def flatDescriptions (ext : Externals) (dm : DM) (fieldDescriptors : List FieldDescriptor) :
    List FieldDescription :=
  fieldDescriptors.flatten.map (FieldDescription.DecompressComponents ext dm.dim)

/-- The relation between the state `(self, allAuxFields)` of the constructor's loop before a
run of decompressed `descriptions` and the state `(self1, allAuxFields1)` after it: the
solution descriptions were recorded in order with consecutive ids, the auxiliary ones were
appended in order to `allAuxFields`, the mesh kept its dimension and labels and gained at most
one field for each solution description and none otherwise, and nothing else changed. -/
def registeredFrom (ext : Externals) (self : Domain) (allAuxFields : List FieldDescription)
    (descriptions : List FieldDescription) (self1 : Domain)
    (allAuxFields1 : List FieldDescription) : Prop :=
  self1.fields =
    self.fields ++ recordedFrom self.fields.length
      (descriptions.filter FieldDescription.isSolution) ∧
  allAuxFields1 = allAuxFields ++ descriptions.filter FieldDescription.isAuxiliary ∧
  self1.dm.dim = self.dm.dim ∧ self1.dm.labels = self.dm.labels ∧
  self1.name = self.name ∧ self1.subDomains = self.subDomains ∧
  self1.solField = self.solField ∧
  ∃ added, self1.dm.fields = self.dm.fields ++ added ∧
    added.length ≤ (descriptions.filter FieldDescription.isSolution).length ∧
    ∀ p ∈ added, ∃ fd ∈ descriptions, fd.isSolution = true ∧
      ∃ dm, p.2 = ext.CreatePetscField fd dm

end domain

/-! ## Concrete data used to evaluate the definitions -/

namespace sample

open domain

/-- A toolkit whose `DMAddField` returns the given code, and that reports one DS for every
mesh. -/
def externals (addFieldCode : Int) : Externals :=
  { InRegion := fun subDomain region => subDomain.ds == region.value
    RegionToString := fun region => region.name
    DecompressComponents := fun _ components => components
    CreatePetscField := fun fieldDescription _ =>
      { name := fieldDescription.name
        numberComponents := (fieldDescription.components.length : Int) }
    DMAddFieldCode := fun _ _ _ => addFieldCode
    numberDS := fun _ => 1
    GetFieldException := fun name => .invalid_argument ("unknown field " ++ name)
    petscError := .runtime_error "PETSc error" }

/-- A two-dimensional mesh with one label and no field. -/
def mesh : DM :=
  { dim := 2, labels := ["interior"], fields := [] }

/-- A domain on `mesh` with nothing registered. -/
def emptyDomain : Domain :=
  { dm := mesh, name := "domain", fields := [], subDomains := [], solField := none }

/-- A solution field description without region. -/
def pressure : FieldDescription :=
  { name := "pressure", components := ["p"], location := .SOL, region := none }

/-- A solution field description on the region `interior`. -/
def velocity : FieldDescription :=
  { name := "velocity", components := ["u", "v"], location := .SOL
    region := some { name := "interior", value := 1 } }

/-- The enumerators as a header declaring `VEL, PRES, TEMP`, `VTEST, QTEST, WTEST` and twelve
parameters in that order gives them. -/
def enumerators : finiteElement.LowMachFlowEnumerators :=
  { VEL := 0, PRES := 1, TEMP := 2, VTEST := 0, QTEST := 1, WTEST := 2
    TOTAL_LOW_MACH_FLOW_PARAMETERS := 12 }

/-- A base class `Setup` that changes nothing and does not throw. -/
def solverExternals : finiteElement.SolverExternals :=
  { FiniteElementSolverSetup := fun self => (self, none)
    GetFieldException := fun name => .invalid_argument ("unknown field " ++ name)
    Fill := fun _ => 1 }

/-- A problem object without registrations. -/
def emptyProblem : finiteElement.PetscDS :=
  { residuals := [], jacobians := [], constants := none }

/-- A subDomain whose fields are in the expected order. -/
def orderedSolver : finiteElement.SolverState :=
  { fields := [("velocity", 0), ("pressure", 1), ("temperature", 2)], prob := emptyProblem
    nullspace := [] }

/-- A subDomain in which pressure and temperature are swapped. -/
def swappedSolver : finiteElement.SolverState :=
  { fields := [("velocity", 0), ("temperature", 1), ("pressure", 2)], prob := emptyProblem
    nullspace := [] }

/-- A mesh with three fields, the first added under a label. -/
def meshWithFields : DM :=
  { dim := 2, labels := ["interior"]
    fields :=
      [(some { name := "interior" }, { name := "velocity", numberComponents := 2 }),
       (none, { name := "pressure", numberComponents := 1 }),
       (none, { name := "temperature", numberComponents := 1 })] }

/-- A domain on `meshWithFields` with its three fields recorded and a solution vector. -/
def domainWithFields : Domain :=
  { dm := meshWithFields, name := "domain"
    fields := recordedFrom 0 [velocity, pressure,
      { name := "temperature", components := ["T"], location := .SOL, region := none }]
    subDomains := [{ ds := 0, auxFields := [] }], solField := some { name := "solution" } }

/-- Two initializations: the pressure on the whole field, the velocity on a region. -/
def initializations : List FieldFunction :=
  [{ name := "pressure", region := none, petscFunction := some { name := "pInit" }
     context := some { name := "pCtx" } },
   { name := "velocity", region := some { name := "inlet", value := 3 }
     petscFunction := some { name := "uInit" }, context := none }]

/-- A solver on the whole domain, none of whose methods throws. -/
def flowSolver : solver.Solver :=
  { solverId := "flow", region := none, Register := none, Setup := none, Initialize := none }

/-- A solver on a region that no subDomain of `domainWithFields` is in. -/
def strayRegionSolver : solver.Solver :=
  { solverId := "stray", region := some { name := "outlet", value := 9 }, Register := none
    Setup := none, Initialize := none }

end sample

/-! ## Theorems -/

namespace domain

/-! ### `Domain::GetSubDomain` -/

theorem marchSubDomains_eq_none (ext : Externals) (region : Region) (l : List SubDomain) :
    marchSubDomains ext region l = none ↔ ∀ x ∈ l, ext.InRegion x region = false := by
  induction l with
  | nil => simp [marchSubDomains]
  | cons a t ih =>
    by_cases h : ext.InRegion a region = true
    · simp [marchSubDomains, h]
    · simp [marchSubDomains, h, ih]

theorem marchSubDomains_cons_of_true (ext : Externals) (region : Region) (a : SubDomain)
    (t : List SubDomain) (h : ext.InRegion a region = true) :
    marchSubDomains ext region (a :: t) = some a := by
  simp [marchSubDomains, h]

theorem marchSubDomains_cons_of_false (ext : Externals) (region : Region) (a : SubDomain)
    (t : List SubDomain) (h : ext.InRegion a region = false) :
    marchSubDomains ext region (a :: t) = marchSubDomains ext region t := by
  simp [marchSubDomains, h]

theorem marchSubDomains_eq_some (ext : Externals) (region : Region) (l : List SubDomain)
    (sd : SubDomain) :
    marchSubDomains ext region l = some sd ↔
      ∃ before after, l = before ++ sd :: after ∧
        (∀ x ∈ before, ext.InRegion x region = false) ∧ ext.InRegion sd region = true := by
  induction l with
  | nil => simp [marchSubDomains]
  | cons a t ih =>
    cases h : ext.InRegion a region with
    | true =>
      rw [marchSubDomains_cons_of_true ext region a t h]
      constructor
      · intro hs
        have hs : a = sd := Option.some.inj hs
        subst hs
        exact ⟨[], t, rfl, by simp, h⟩
      · rintro ⟨before, after, hl, hb, _⟩
        cases before with
        | nil =>
          have hab : a = sd := (List.cons.inj hl).1
          rw [hab]
        | cons b bs =>
          have hab : a = b := (List.cons.inj hl).1
          have hf := hb b (by simp)
          rw [← hab, h] at hf
          exact absurd hf (by simp)
    | false =>
      rw [marchSubDomains_cons_of_false ext region a t h, ih]
      constructor
      · rintro ⟨before, after, hl, hb, hs⟩
        refine ⟨a :: before, after, by simp [hl], ?_, hs⟩
        intro x hx
        rcases List.mem_cons.1 hx with hxa | hx
        · rw [hxa]; exact h
        · exact hb x hx
      · rintro ⟨before, after, hl, hb, hs⟩
        cases before with
        | nil =>
          have hab : a = sd := (List.cons.inj hl).1
          rw [hab, hs] at h
          exact absurd h (by simp)
        | cons b bs =>
          refine ⟨bs, after, (List.cons.inj hl).2, ?_, hs⟩
          intro x hx
          exact hb x (List.mem_cons_of_mem _ hx)

theorem GetSubDomain_region_eq (ext : Externals) (self : Domain) (region : Region) :
    self.GetSubDomain ext (some region) =
      match marchSubDomains ext region self.subDomains with
      | some subDomain => .returned subDomain
      | none =>
        .raised (.runtime_error
          ("Unable to locate subDomain for region " ++ ext.RegionToString region)) :=
  rfl

/-- C1: `GetSubDomain` with a region returns a subDomain exactly when it is the first one, in
the order of `subDomains`, for which `InRegion(region)` holds; it throws exactly when no
subDomain is in the region, what it throws is a `std::runtime_error`, and it never runs into
undefined behaviour. -/
theorem GetSubDomain_region_first_match (ext : Externals) (self : Domain) (region : Region) :
    (∀ sd, self.GetSubDomain ext (some region) = .returned sd ↔
      ∃ before after, self.subDomains = before ++ sd :: after ∧
        (∀ x ∈ before, ext.InRegion x region = false) ∧ ext.InRegion sd region = true) ∧
    ((∃ e, self.GetSubDomain ext (some region) = .raised e) ↔
      ∀ x ∈ self.subDomains, ext.InRegion x region = false) ∧
    (∀ e, self.GetSubDomain ext (some region) = .raised e → e.isRuntimeError = true) ∧
    self.GetSubDomain ext (some region) ≠ .undefined := by
  rw [GetSubDomain_region_eq]
  refine ⟨?_, ?_, ?_, ?_⟩
  · intro sd
    rw [← marchSubDomains_eq_some]
    cases marchSubDomains ext region self.subDomains <;> simp
  · rw [← marchSubDomains_eq_none]
    cases marchSubDomains ext region self.subDomains <;> simp
  · intro e
    cases marchSubDomains ext region self.subDomains with
    | none =>
      intro he
      have he : Exception.runtime_error _ = e := Outcome.raised.inj he
      rw [← he]
      rfl
    | some sd => simp
  · cases marchSubDomains ext region self.subDomains <;> simp

theorem lookUpLabel_error_iff (dm : DM) (fd : FieldDescription) :
    (∃ e, lookUpLabel dm fd = .error e) ↔
      ∃ region, fd.region = some region ∧ region.name ∉ dm.labels := by
  unfold lookUpLabel DMGetLabel
  cases hr : fd.region with
  | none => simp
  | some region =>
    by_cases hm : region.name ∈ dm.labels
    · simp [hm]
    · simp [hm]

theorem lookUpLabel_error_invalid (dm : DM) (fd : FieldDescription) (e : Exception)
    (h : lookUpLabel dm fd = .error e) : e.isInvalidArgument = true := by
  unfold lookUpLabel DMGetLabel at h
  cases hr : fd.region with
  | none => simp [hr] at h
  | some region =>
    by_cases hm : region.name ∈ dm.labels
    · simp [hr, hm] at h
    · simp [hr, hm] at h
      rw [← h]
      rfl

theorem RegisterField_of_not_SOL (ext : Externals) (self : Domain) (fd : FieldDescription)
    (h : fd.location ≠ FieldLocation.SOL) :
    self.RegisterField ext fd =
      (self, some (.invalid_argument
        "The field must be FieldLocation::SOL to be registered with the domain")) := by
  unfold Domain.RegisterField
  rw [if_pos h]

theorem RegisterField_of_label_error (ext : Externals) (self : Domain) (fd : FieldDescription)
    (e : Exception) (h : fd.location = FieldLocation.SOL) (hl : lookUpLabel self.dm fd = .error e) :
    self.RegisterField ext fd = (self, some e) := by
  unfold Domain.RegisterField
  rw [if_neg (not_not.2 h), hl]

theorem RegisterField_of_label_ok (ext : Externals) (self : Domain) (fd : FieldDescription)
    (label : Option DMLabel) (h : fd.location = FieldLocation.SOL)
    (hl : lookUpLabel self.dm fd = .ok label) :
    self.RegisterField ext fd =
      ({ self with
          dm := (DMAddField ext self.dm label (ext.CreatePetscField fd self.dm)).2
          fields := self.fields ++
            [Field.FromFieldDescription fd (self.fields.length : Int)] }, none) := by
  unfold Domain.RegisterField
  rw [if_neg (not_not.2 h), hl]

theorem RegisterField_fields_of_return (ext : Externals) (self : Domain)
    (fd : FieldDescription) (h : (self.RegisterField ext fd).2 = none) :
    (self.RegisterField ext fd).1.fields =
      self.fields ++ [Field.FromFieldDescription fd (self.fields.length : Int)] := by
  by_cases hloc : fd.location = FieldLocation.SOL
  · cases hl : lookUpLabel self.dm fd with
    | error e0 =>
      rw [RegisterField_of_label_error ext self fd e0 hloc hl] at h
      exact absurd h (by simp)
    | ok label => rw [RegisterField_of_label_ok ext self fd label hloc hl]
  · rw [RegisterField_of_not_SOL ext self fd hloc] at h
    exact absurd h (by simp)

/-- C3: `RegisterField` throws exactly when the location of the description is not `SOL` or
the description names a region whose label the mesh does not contain; what it throws is a
`std::invalid_argument`; when it throws the domain, and so the field list of the mesh and the
recorded `fields`, are as before the call; and when it does not throw exactly one field, with
the next free id, has been recorded. -/
theorem RegisterField_raises_iff (ext : Externals) (self : Domain) (fd : FieldDescription) :
    ((∃ e, (self.RegisterField ext fd).2 = some e) ↔
      (fd.location ≠ FieldLocation.SOL ∨
        ∃ region, fd.region = some region ∧ region.name ∉ self.dm.labels)) ∧
    (∀ e, (self.RegisterField ext fd).2 = some e →
      e.isInvalidArgument = true ∧ (self.RegisterField ext fd).1 = self ∧
      (self.RegisterField ext fd).1.dm.fields = self.dm.fields ∧
      (self.RegisterField ext fd).1.fields = self.fields) ∧
    ((self.RegisterField ext fd).2 = none →
      (self.RegisterField ext fd).1.fields =
        self.fields ++ [Field.FromFieldDescription fd (self.fields.length : Int)]) := by
  by_cases hloc : fd.location = FieldLocation.SOL
  · cases hl : lookUpLabel self.dm fd with
    | error e0 =>
      rw [RegisterField_of_label_error ext self fd e0 hloc hl]
      have hex : ∃ e, lookUpLabel self.dm fd = .error e := ⟨e0, hl⟩
      refine ⟨⟨fun _ => Or.inr ((lookUpLabel_error_iff self.dm fd).1 hex), fun _ => ⟨e0, rfl⟩⟩,
        ?_, ?_⟩
      · intro e he
        have he : e0 = e := Option.some.inj he
        rw [← he]
        exact ⟨lookUpLabel_error_invalid self.dm fd e0 hl, rfl, rfl, rfl⟩
      · intro h
        exact absurd h (by simp)
    | ok label =>
      rw [RegisterField_of_label_ok ext self fd label hloc hl]
      refine ⟨⟨fun h => ?_, fun h => ?_⟩, ?_, ?_⟩
      · obtain ⟨e, he⟩ := h
        exact absurd he (by simp)
      · rcases h with h | h
        · exact absurd hloc h
        · obtain ⟨e, he⟩ := (lookUpLabel_error_iff self.dm fd).2 h
          rw [hl] at he
          exact absurd he (by simp)
      · intro e he
        exact absurd he (by simp)
      · intro _
        rfl
  · rw [RegisterField_of_not_SOL ext self fd hloc]
    refine ⟨⟨fun _ => Or.inl hloc, fun _ => ⟨_, rfl⟩⟩, ?_, ?_⟩
    · intro e he
      have he : Exception.invalid_argument _ = e := Option.some.inj he
      rw [← he]
      exact ⟨rfl, rfl, rfl, rfl⟩
    · intro h
      exact absurd h (by simp)

/-! ### The constructor of `Domain` -/

theorem RegisterField_dm_dim (ext : Externals) (self : Domain) (fd : FieldDescription) :
    (self.RegisterField ext fd).1.dm.dim = self.dm.dim := by
  unfold Domain.RegisterField DMAddField
  split
  · rfl
  · split
    · rfl
    · dsimp only
      split <;> rfl

theorem RegisterField_dm_labels (ext : Externals) (self : Domain) (fd : FieldDescription) :
    (self.RegisterField ext fd).1.dm.labels = self.dm.labels := by
  unfold Domain.RegisterField DMAddField
  split
  · rfl
  · split
    · rfl
    · dsimp only
      split <;> rfl

theorem RegisterField_members (ext : Externals) (self : Domain) (fd : FieldDescription) :
    (self.RegisterField ext fd).1.name = self.name ∧
    (self.RegisterField ext fd).1.subDomains = self.subDomains ∧
    (self.RegisterField ext fd).1.solField = self.solField := by
  unfold Domain.RegisterField
  split
  · exact ⟨rfl, rfl, rfl⟩
  · split <;> exact ⟨rfl, rfl, rfl⟩

/-- The mesh after a `RegisterField` that returns holds the fields it held and at most one
more, created from the description. -/
theorem RegisterField_dm_fields (ext : Externals) (self : Domain) (fd : FieldDescription)
    (h : (self.RegisterField ext fd).2 = none) :
    ∃ added, (self.RegisterField ext fd).1.dm.fields = self.dm.fields ++ added ∧
      added.length ≤ 1 ∧ ∀ p ∈ added, p.2 = ext.CreatePetscField fd self.dm := by
  by_cases hloc : fd.location = FieldLocation.SOL
  · cases hl : lookUpLabel self.dm fd with
    | error e0 =>
      rw [RegisterField_of_label_error ext self fd e0 hloc hl] at h
      exact absurd h (by simp)
    | ok label =>
      rw [RegisterField_of_label_ok ext self fd label hloc hl]
      unfold DMAddField
      dsimp only
      split
      · exact ⟨[(label, ext.CreatePetscField fd self.dm)], rfl, le_refl _, by simp⟩
      · exact ⟨[], by simp, by simp, by simp⟩
  · rw [RegisterField_of_not_SOL ext self fd hloc] at h
    exact absurd h (by simp)

theorem recordedFrom_length (start : Nat) (l : List FieldDescription) :
    (recordedFrom start l).length = l.length := by
  simp [recordedFrom]

theorem recordedFrom_append (start : Nat) (l₁ l₂ : List FieldDescription) :
    recordedFrom start (l₁ ++ l₂) =
      recordedFrom start l₁ ++ recordedFrom (start + l₁.length) l₂ := by
  simp [recordedFrom, List.enumFrom_append]

theorem registeredFrom_nil (ext : Externals) (self : Domain) (aux : List FieldDescription) :
    registeredFrom ext self aux [] self aux := by
  refine ⟨by simp [recordedFrom], by simp, rfl, rfl, rfl, rfl, rfl, [], by simp, by simp, ?_⟩
  intro p hp
  exact absurd hp (by simp)

theorem registeredFrom_trans (ext : Externals) (s₀ s₁ s₂ : Domain)
    (a₀ a₁ a₂ l₁ l₂ : List FieldDescription)
    (h₁ : registeredFrom ext s₀ a₀ l₁ s₁ a₁) (h₂ : registeredFrom ext s₁ a₁ l₂ s₂ a₂) :
    registeredFrom ext s₀ a₀ (l₁ ++ l₂) s₂ a₂ := by
  obtain ⟨hf₁, ha₁, hd₁, hl₁, hn₁, hs₁, hv₁, add₁, hm₁, hlen₁, hp₁⟩ := h₁
  obtain ⟨hf₂, ha₂, hd₂, hl₂, hn₂, hs₂, hv₂, add₂, hm₂, hlen₂, hp₂⟩ := h₂
  have hlen : s₁.fields.length =
      s₀.fields.length + (l₁.filter FieldDescription.isSolution).length := by
    rw [hf₁, List.length_append, recordedFrom_length]
  refine ⟨?_, ?_, hd₂.trans hd₁, hl₂.trans hl₁, hn₂.trans hn₁, hs₂.trans hs₁, hv₂.trans hv₁,
    add₁ ++ add₂, ?_, ?_, ?_⟩
  · rw [hf₂, hlen, hf₁, List.filter_append, recordedFrom_append, List.append_assoc]
  · rw [ha₂, ha₁, List.filter_append, List.append_assoc]
  · rw [hm₂, hm₁, List.append_assoc]
  · rw [List.length_append, List.filter_append, List.length_append]
    exact Nat.add_le_add hlen₁ hlen₂
  · intro p hp
    rcases List.mem_append.1 hp with hp | hp
    · obtain ⟨fd, hfd, hsol, hdm⟩ := hp₁ p hp
      exact ⟨fd, List.mem_append_left _ hfd, hsol, hdm⟩
    · obtain ⟨fd, hfd, hsol, hdm⟩ := hp₂ p hp
      exact ⟨fd, List.mem_append_right _ hfd, hsol, hdm⟩

theorem registeredFrom_AUX (ext : Externals) (self : Domain) (aux : List FieldDescription)
    (fd : FieldDescription) (h : fd.location = FieldLocation.AUX) :
    registeredFrom ext self aux [fd] self (aux ++ [fd]) := by
  have hs : fd.isSolution = false := by simp [FieldDescription.isSolution, h]
  have ha : fd.isAuxiliary = true := by simp [FieldDescription.isAuxiliary, h]
  refine ⟨by simp [hs, recordedFrom], by simp [ha], rfl, rfl, rfl, rfl, rfl, [], by simp,
    by simp, ?_⟩
  intro p hp
  exact absurd hp (by simp)

theorem registeredFrom_SOL (ext : Externals) (self : Domain) (aux : List FieldDescription)
    (fd : FieldDescription) (h : fd.location = FieldLocation.SOL)
    (hr : (self.RegisterField ext fd).2 = none) :
    registeredFrom ext self aux [fd] (self.RegisterField ext fd).1 aux := by
  have hs : fd.isSolution = true := by simp [FieldDescription.isSolution, h]
  have ha : fd.isAuxiliary = false := by simp [FieldDescription.isAuxiliary, h]
  obtain ⟨hn, hsub, hv⟩ := RegisterField_members ext self fd
  obtain ⟨added, hadd, hlen, hp⟩ := RegisterField_dm_fields ext self fd hr
  refine ⟨?_, by simp [ha], RegisterField_dm_dim ext self fd, RegisterField_dm_labels ext self fd,
    hn, hsub, hv, added, hadd, by simpa [hs] using hlen, ?_⟩
  · rw [RegisterField_fields_of_return ext self fd hr]
    simp [hs, recordedFrom]
  · intro p hpm
    exact ⟨fd, by simp, hs, self.dm, hp p hpm⟩

theorem registerDescriptions_cons_AUX (ext : Externals) (self : Domain)
    (aux : List FieldDescription) (fd0 : FieldDescription) (rest : List FieldDescription)
    (h : fd0.location = FieldLocation.AUX) :
    registerDescriptions ext self aux (fd0 :: rest) =
      registerDescriptions ext self
        (aux ++ [fd0.DecompressComponents ext self.GetDimensions]) rest := by
  have h1 : (fd0.DecompressComponents ext self.GetDimensions).location = FieldLocation.AUX := h
  rw [registerDescriptions]
  simp only [h1]

theorem registerDescriptions_cons_other (ext : Externals) (self : Domain)
    (aux : List FieldDescription) (fd0 : FieldDescription) (rest : List FieldDescription)
    (raw : Int) (h : fd0.location = FieldLocation.other raw) :
    registerDescriptions ext self aux (fd0 :: rest) =
      .error (.invalid_argument ("Unknown Field Location for " ++ fd0.name)) := by
  have h1 : (fd0.DecompressComponents ext self.GetDimensions).location =
      FieldLocation.other raw := h
  rw [registerDescriptions]
  simp only [h1]
  rfl

theorem registerDescriptions_cons_SOL (ext : Externals) (self : Domain)
    (aux : List FieldDescription) (fd0 : FieldDescription) (rest : List FieldDescription)
    (h : fd0.location = FieldLocation.SOL) :
    registerDescriptions ext self aux (fd0 :: rest) =
      match (self.RegisterField ext (fd0.DecompressComponents ext self.GetDimensions)).2 with
      | none =>
        registerDescriptions ext
          (self.RegisterField ext (fd0.DecompressComponents ext self.GetDimensions)).1 aux rest
      | some e => .error e := by
  have h1 : (fd0.DecompressComponents ext self.GetDimensions).location = FieldLocation.SOL := h
  rw [registerDescriptions]
  simp only [h1]
  rcases hr : self.RegisterField ext (fd0.DecompressComponents ext self.GetDimensions) with
    ⟨s1, _ | e⟩ <;> rfl

theorem RegisterField_raise_invalid (ext : Externals) (self : Domain) (fd : FieldDescription)
    (e : Exception) (h : (self.RegisterField ext fd).2 = some e) :
    e.isInvalidArgument = true := by
  by_cases hloc : fd.location = FieldLocation.SOL
  · cases hl : lookUpLabel self.dm fd with
    | error e0 =>
      rw [RegisterField_of_label_error ext self fd e0 hloc hl] at h
      have he : e0 = e := Option.some.inj h
      rw [← he]
      exact lookUpLabel_error_invalid self.dm fd e0 hl
    | ok label =>
      rw [RegisterField_of_label_ok ext self fd label hloc hl] at h
      exact absurd h (by simp)
  · rw [RegisterField_of_not_SOL ext self fd hloc] at h
    have he : Exception.invalid_argument _ = e := Option.some.inj h
    rw [← he]
    rfl

theorem hasLabelIn_eq_false_iff (labels : List String) (fd : FieldDescription) :
    fd.hasLabelIn labels = false ↔
      ∃ region, fd.region = some region ∧ region.name ∉ labels := by
  unfold FieldDescription.hasLabelIn
  cases fd.region with
  | none => simp
  | some region => simp

theorem RegisterField_return_iff (ext : Externals) (self : Domain) (fd : FieldDescription)
    (hloc : fd.location = FieldLocation.SOL) :
    (self.RegisterField ext fd).2 = none ↔ fd.hasLabelIn self.dm.labels = true := by
  cases hl : lookUpLabel self.dm fd with
  | error e0 =>
    rw [RegisterField_of_label_error ext self fd e0 hloc hl]
    have hf := (hasLabelIn_eq_false_iff self.dm.labels fd).2
      ((lookUpLabel_error_iff self.dm fd).1 ⟨e0, hl⟩)
    simp [hf]
  | ok label =>
    rw [RegisterField_of_label_ok ext self fd label hloc hl]
    have hn : ¬ fd.hasLabelIn self.dm.labels = false := by
      intro hf
      obtain ⟨e, he⟩ := (lookUpLabel_error_iff self.dm fd).2
        ((hasLabelIn_eq_false_iff self.dm.labels fd).1 hf)
      rw [hl] at he
      exact absurd he (by simp)
    simpa using hn

/-- The inner loop of the constructor: it completes exactly on lists of registrable
descriptions, then leaves the state `registeredFrom` describes, and otherwise throws
`std::invalid_argument`. -/
theorem registerDescriptions_spec (ext : Externals) (l : List FieldDescription) :
    ∀ (self : Domain) (aux : List FieldDescription),
      (∀ s a, registerDescriptions ext self aux l = .ok (s, a) →
        (∀ fd ∈ l, fd.registrable self.dm.labels = true) ∧
        registeredFrom ext self aux
          (l.map (FieldDescription.DecompressComponents ext self.dm.dim)) s a) ∧
      (∀ e, registerDescriptions ext self aux l = .error e →
        (∃ fd ∈ l, fd.registrable self.dm.labels = false) ∧ e.isInvalidArgument = true) := by
  induction l with
  | nil =>
    intro self aux
    refine ⟨?_, ?_⟩
    · intro s a h
      have h : (self, aux) = (s, a) := Except.ok.inj h
      obtain ⟨rfl, rfl⟩ := Prod.mk.inj h
      exact ⟨by simp, registeredFrom_nil ext self aux⟩
    · intro e h
      exact absurd h (by simp [registerDescriptions])
  | cons fd0 t ih =>
    intro self aux
    cases hloc : fd0.location with
    | SOL =>
      have hsol : fd0.isSolution = true := by simp [FieldDescription.isSolution, hloc]
      have haux : fd0.isAuxiliary = false := by simp [FieldDescription.isAuxiliary, hloc]
      rw [registerDescriptions_cons_SOL ext self aux fd0 t hloc]
      have hloc1 : (fd0.DecompressComponents ext self.GetDimensions).location =
          FieldLocation.SOL := hloc
      have hiff := RegisterField_return_iff ext self
        (fd0.DecompressComponents ext self.GetDimensions) hloc1
      cases hr : (self.RegisterField ext (fd0.DecompressComponents ext self.GetDimensions)).2 with
      | none =>
        have hlab : fd0.hasLabelIn self.dm.labels = true := hiff.1 hr
        have hreg0 : fd0.registrable self.dm.labels = true := by
          simp [FieldDescription.registrable, hsol, hlab]
        have hstep := registeredFrom_SOL ext self aux _ hloc1 hr
        have hdim := RegisterField_dm_dim ext self
          (fd0.DecompressComponents ext self.GetDimensions)
        have hlabels := RegisterField_dm_labels ext self
          (fd0.DecompressComponents ext self.GetDimensions)
        obtain ⟨ih1, ih2⟩ := ih
          (self.RegisterField ext (fd0.DecompressComponents ext self.GetDimensions)).1 aux
        rw [hdim, hlabels] at ih1
        rw [hlabels] at ih2
        refine ⟨?_, ?_⟩
        · intro s a h
          obtain ⟨hall, hrel⟩ := ih1 s a h
          refine ⟨?_, ?_⟩
          · intro fd hfd
            rcases List.mem_cons.1 hfd with rfl | hfd
            · exact hreg0
            · exact hall fd hfd
          · exact registeredFrom_trans ext _ _ _ _ _ _ _ _ hstep hrel
        · intro e h
          obtain ⟨⟨fd, hfd, hbad⟩, hinv⟩ := ih2 e h
          exact ⟨⟨fd, List.mem_cons_of_mem _ hfd, hbad⟩, hinv⟩
      | some e0 =>
        have hlab : fd0.hasLabelIn self.dm.labels = false := by
          cases hh : fd0.hasLabelIn self.dm.labels with
          | false => rfl
          | true =>
            have := hiff.2 hh
            rw [hr] at this
            exact absurd this (by simp)
        refine ⟨?_, ?_⟩
        · intro s a h
          exact absurd h (by simp)
        · intro e h
          have he : e0 = e := Except.error.inj h
          rw [← he]
          refine ⟨⟨fd0, by simp, ?_⟩, RegisterField_raise_invalid ext self _ e0 hr⟩
          simp [FieldDescription.registrable, haux, hlab]
    | AUX =>
      have haux : fd0.isAuxiliary = true := by simp [FieldDescription.isAuxiliary, hloc]
      rw [registerDescriptions_cons_AUX ext self aux fd0 t hloc]
      have hloc1 : (fd0.DecompressComponents ext self.GetDimensions).location =
          FieldLocation.AUX := hloc
      have hstep := registeredFrom_AUX ext self aux _ hloc1
      obtain ⟨ih1, ih2⟩ := ih self (aux ++ [fd0.DecompressComponents ext self.GetDimensions])
      refine ⟨?_, ?_⟩
      · intro s a h
        obtain ⟨hall, hrel⟩ := ih1 s a h
        refine ⟨?_, ?_⟩
        · intro fd hfd
          rcases List.mem_cons.1 hfd with rfl | hfd
          · simp [FieldDescription.registrable, haux]
          · exact hall fd hfd
        · exact registeredFrom_trans ext _ _ _ _ _ _ _ _ hstep hrel
      · intro e h
        obtain ⟨⟨fd, hfd, hbad⟩, hinv⟩ := ih2 e h
        exact ⟨⟨fd, List.mem_cons_of_mem _ hfd, hbad⟩, hinv⟩
    | other raw =>
      rw [registerDescriptions_cons_other ext self aux fd0 t raw hloc]
      refine ⟨?_, ?_⟩
      · intro s a h
        exact absurd h (by simp)
      · intro e h
        have he : Exception.invalid_argument _ = e := Except.error.inj h
        rw [← he]
        refine ⟨⟨fd0, by simp, ?_⟩, rfl⟩
        simp [FieldDescription.registrable, FieldDescription.isAuxiliary,
          FieldDescription.isSolution, hloc]

/-- The outer loop of the constructor, on the flattened list of descriptions. -/
theorem registerDescriptors_spec (ext : Externals) (L : List FieldDescriptor) :
    ∀ (self : Domain) (aux : List FieldDescription),
      (∀ s a, registerDescriptors ext self aux L = .ok (s, a) →
        (∀ fd ∈ L.flatten, fd.registrable self.dm.labels = true) ∧
        registeredFrom ext self aux
          (L.flatten.map (FieldDescription.DecompressComponents ext self.dm.dim)) s a) ∧
      (∀ e, registerDescriptors ext self aux L = .error e →
        (∃ fd ∈ L.flatten, fd.registrable self.dm.labels = false) ∧
        e.isInvalidArgument = true) := by
  induction L with
  | nil =>
    intro self aux
    refine ⟨?_, ?_⟩
    · intro s a h
      have h : (self, aux) = (s, a) := Except.ok.inj h
      obtain ⟨rfl, rfl⟩ := Prod.mk.inj h
      exact ⟨by simp, registeredFrom_nil ext self aux⟩
    · intro e h
      exact absurd h (by simp [registerDescriptors])
  | cons d rest ih =>
    intro self aux
    obtain ⟨hd1, hd2⟩ := registerDescriptions_spec ext d self aux
    rw [registerDescriptors]
    cases hr : registerDescriptions ext self aux d with
    | error e0 =>
      obtain ⟨⟨fd, hfd, hbad⟩, hinv⟩ := hd2 e0 hr
      refine ⟨?_, ?_⟩
      · intro s a h
        exact absurd h (by simp)
      · intro e h
        have he : e0 = e := Except.error.inj h
        rw [← he]
        exact ⟨⟨fd, by simp [hfd], hbad⟩, hinv⟩
    | ok r =>
      obtain ⟨s1, a1⟩ := r
      obtain ⟨hall1, hrel1⟩ := hd1 s1 a1 hr
      have hdim : s1.dm.dim = self.dm.dim := hrel1.2.2.1
      have hlabels : s1.dm.labels = self.dm.labels := hrel1.2.2.2.1
      obtain ⟨ih1, ih2⟩ := ih s1 a1
      rw [hdim, hlabels] at ih1
      rw [hlabels] at ih2
      refine ⟨?_, ?_⟩
      · intro s a h
        obtain ⟨hall, hrel⟩ := ih1 s a h
        refine ⟨?_, ?_⟩
        · intro fd hfd
          rw [List.flatten_cons] at hfd
          rcases List.mem_append.1 hfd with hfd | hfd
          · exact hall1 fd hfd
          · exact hall fd hfd
        · rw [List.flatten_cons, List.map_append]
          exact registeredFrom_trans ext _ _ _ _ _ _ _ _ hrel1 hrel
      · intro e h
        obtain ⟨⟨fd, hfd, hbad⟩, hinv⟩ := ih2 e h
        exact ⟨⟨fd, by simp [hfd], hbad⟩, hinv⟩

theorem createSubDomains_auxFields (numberDS : Int) (aux : List FieldDescription) :
    ∀ sd ∈ createSubDomains numberDS aux, sd.auxFields = aux := by
  intro sd hsd
  unfold createSubDomains at hsd
  obtain ⟨k, _, rfl⟩ := List.mem_map.1 hsd
  rfl

theorem Domain_create_eq (ext : Externals) (dmIn : DM) (name : String)
    (fieldDescriptors : List FieldDescriptor) (modifiers : List Modifier) :
    Domain.create ext dmIn name fieldDescriptors modifiers =
      match registerDescriptors ext
        { dm := applyModifiers modifiers dmIn, name := name, fields := [], subDomains := []
          solField := none } [] fieldDescriptors with
      | .error e => .error e
      | .ok (self1, allAuxFields) =>
        .ok { self1 with subDomains := createSubDomains (ext.numberDS self1.dm) allAuxFields } :=
  rfl

theorem registrable_iff (labels : List String) (fd : FieldDescription) :
    fd.registrable labels = true ↔
      (fd.location = FieldLocation.AUX ∨
        (fd.location = FieldLocation.SOL ∧
          ∀ region, fd.region = some region → region.name ∈ labels)) := by
  unfold FieldDescription.registrable FieldDescription.isAuxiliary FieldDescription.isSolution
    FieldDescription.hasLabelIn
  cases fd.region with
  | none => simp
  | some region => simp

theorem isInvalidArgument_iff (e : Exception) :
    e.isInvalidArgument = true ↔ ∃ what, e = .invalid_argument what := by
  cases e with
  | invalid_argument what => simp [Exception.isInvalidArgument]
  | runtime_error what => simp [Exception.isInvalidArgument]

/-- The constructed domain holds one subDomain for each DS the toolkit reports, so it holds
at least one exactly when the toolkit reports at least one. -/
theorem Domain_create_subDomains_length (ext : Externals) (dmIn : DM) (name : String)
    (fieldDescriptors : List FieldDescriptor) (modifiers : List Modifier) (D : Domain)
    (h : Domain.create ext dmIn name fieldDescriptors modifiers = .ok D) :
    D.subDomains.length = (ext.numberDS D.dm).toNat := by
  rw [Domain_create_eq] at h
  cases hr : registerDescriptors ext
      { dm := applyModifiers modifiers dmIn, name := name, fields := [], subDomains := []
        solField := none } [] fieldDescriptors with
  | error e0 =>
    rw [hr] at h
    exact absurd h (by simp)
  | ok r =>
    obtain ⟨s, a⟩ := r
    rw [hr] at h
    have hD : { s with subDomains := createSubDomains (ext.numberDS s.dm) a } = D :=
      Except.ok.inj h
    rw [← hD]
    simp [createSubDomains]

/-- C4: with `dm0 = applyModifiers modifiers dmIn` the mesh after the modifiers, applied in the
given order, and `flatDescriptions` the flattened list of decompressed descriptions: when the
constructor completes, the recorded `fields` are the `SOL` descriptions of that list in order,
with ids counted from 0; every subDomain was handed its `AUX` descriptions in order; there is
one subDomain for each DS; and the mesh has the labels and dimension of `dm0` and the fields of
`dm0` followed by fields that were each created from a `SOL` description, at most one for
each.  The constructor completes exactly when every description is `AUX`, or `SOL` with no
region or a region whose label `dm0` contains; whatever it throws is a
`std::invalid_argument`; and it throws when some location is neither `SOL` nor `AUX`. -/
theorem Domain_create_field_partition (ext : Externals) (dmIn : DM) (name : String)
    (fieldDescriptors : List FieldDescriptor) (modifiers : List Modifier) :
    (∀ D, Domain.create ext dmIn name fieldDescriptors modifiers = .ok D →
      D.fields = recordedFrom 0
        ((flatDescriptions ext (applyModifiers modifiers dmIn) fieldDescriptors).filter
          FieldDescription.isSolution) ∧
      (∀ sd ∈ D.subDomains, sd.auxFields =
        (flatDescriptions ext (applyModifiers modifiers dmIn) fieldDescriptors).filter
          FieldDescription.isAuxiliary) ∧
      D.subDomains.map SubDomain.ds =
        (List.range (ext.numberDS D.dm).toNat).map (fun (ds : Nat) => (ds : Int)) ∧
      D.dm.labels = (applyModifiers modifiers dmIn).labels ∧
      D.dm.dim = (applyModifiers modifiers dmIn).dim ∧
      ∃ added,
        D.dm.fields = (applyModifiers modifiers dmIn).fields ++ added ∧
        added.length ≤
          ((flatDescriptions ext (applyModifiers modifiers dmIn) fieldDescriptors).filter
            FieldDescription.isSolution).length ∧
        ∀ p ∈ added,
          ∃ fd ∈ flatDescriptions ext (applyModifiers modifiers dmIn) fieldDescriptors,
            fd.location = FieldLocation.SOL ∧ ∃ dm, p.2 = ext.CreatePetscField fd dm) ∧
    ((∃ D, Domain.create ext dmIn name fieldDescriptors modifiers = .ok D) ↔
      ∀ fd ∈ fieldDescriptors.flatten,
        fd.location = FieldLocation.AUX ∨
          (fd.location = FieldLocation.SOL ∧
            ∀ region, fd.region = some region →
              region.name ∈ (applyModifiers modifiers dmIn).labels)) ∧
    (∀ e, Domain.create ext dmIn name fieldDescriptors modifiers = .error e →
      e.isInvalidArgument = true) ∧
    ((∃ fd ∈ fieldDescriptors.flatten,
        fd.location ≠ FieldLocation.SOL ∧ fd.location ≠ FieldLocation.AUX) →
      ∃ what, Domain.create ext dmIn name fieldDescriptors modifiers =
        .error (.invalid_argument what)) := by
  obtain ⟨hok, herr⟩ := registerDescriptors_spec ext fieldDescriptors
    { dm := applyModifiers modifiers dmIn, name := name, fields := [], subDomains := []
      solField := none } []
  rw [Domain_create_eq]
  cases hr : registerDescriptors ext
      { dm := applyModifiers modifiers dmIn, name := name, fields := [], subDomains := []
        solField := none } [] fieldDescriptors with
  | error e0 =>
    obtain ⟨⟨fd, hfd, hbad⟩, hinv⟩ := herr e0 hr
    have hbad2 : ¬ (fd.location = FieldLocation.AUX ∨
        (fd.location = FieldLocation.SOL ∧
          ∀ region, fd.region = some region →
            region.name ∈ (applyModifiers modifiers dmIn).labels)) := by
      intro h
      have := (registrable_iff _ fd).2 h
      rw [hbad] at this
      exact absurd this (by simp)
    refine ⟨?_, ⟨?_, ?_⟩, ?_, ?_⟩
    · intro D h
      exact absurd h (by simp)
    · rintro ⟨D, h⟩
      exact absurd h (by simp)
    · intro hall
      exact absurd (hall fd hfd) hbad2
    · intro e h
      have he : e0 = e := Except.error.inj h
      rw [← he]
      exact hinv
    · intro _
      obtain ⟨what, hw⟩ := (isInvalidArgument_iff e0).1 hinv
      exact ⟨what, by rw [hw]⟩
  | ok r =>
    obtain ⟨s, a⟩ := r
    obtain ⟨hall, hf, ha, hd, hl, _, _, _, added, hm, hlen, hp⟩ := hok s a hr
    refine ⟨?_, ⟨?_, ?_⟩, ?_, ?_⟩
    · intro D h
      have hD : { s with subDomains := createSubDomains (ext.numberDS s.dm) a } = D :=
        Except.ok.inj h
      rw [← hD]
      refine ⟨hf, ?_, ?_, hl, hd, added, hm, hlen, ?_⟩
      · intro sd hsd
        rw [createSubDomains_auxFields _ _ sd hsd, ha]
        rfl
      · show (createSubDomains (ext.numberDS s.dm) a).map SubDomain.ds = _
        unfold createSubDomains
        rw [List.map_map]
        rfl
      · intro p hpm
        obtain ⟨fd, hfd, hsol, hdm⟩ := hp p hpm
        exact ⟨fd, hfd, by simpa [FieldDescription.isSolution] using hsol, hdm⟩
    · intro _ fd hfd
      exact (registrable_iff _ fd).1 (hall fd hfd)
    · intro _
      exact ⟨_, rfl⟩
    · intro e h
      exact absurd h (by simp)
    · rintro ⟨fd, hfd, h1, h2⟩
      rcases (registrable_iff _ fd).1 (hall fd hfd) with h | ⟨h, _⟩
      · exact absurd h h2
      · exact absurd h h1

/-! ### Field ids and the field count of the mesh -/

/-- A call of `RegisterField` keeps the id of every recorded field equal to its position. -/
theorem RegisterField_ids (ext : Externals) (self : Domain) (fd : FieldDescription)
    (h : idsArePositions self.fields) :
    idsArePositions (self.RegisterField ext fd).1.fields := by
  unfold idsArePositions at h ⊢
  cases hr : (self.RegisterField ext fd).2 with
  | none =>
    rw [RegisterField_fields_of_return ext self fd hr]
    rw [List.map_append, List.length_append, List.length_singleton, List.range_succ,
      List.map_append, h]
    rfl
  | some e =>
    by_cases hloc : fd.location = FieldLocation.SOL
    · cases hl : lookUpLabel self.dm fd with
      | error e0 =>
        rw [RegisterField_of_label_error ext self fd e0 hloc hl]
        exact h
      | ok label =>
        rw [RegisterField_of_label_ok ext self fd label hloc hl] at hr
        exact absurd hr (by simp)
    · rw [RegisterField_of_not_SOL ext self fd hloc]
      exact h

/-- After any sequence of `RegisterField` calls, returning or throwing, on a domain that
starts without fields, the field recorded at position `k` has id `k`. -/
theorem registerSequence_ids (ext : Externals) (l : List FieldDescription) :
    ∀ self : Domain, idsArePositions self.fields →
      idsArePositions (registerSequence ext self l).fields := by
  induction l with
  | nil =>
    intro self h
    exact h
  | cons fd t ih =>
    intro self h
    exact ih _ (RegisterField_ids ext self fd h)

/-- C10: on a domain without fields, `RegisterField` of a solution field while the toolkit's
`DMAddField` returns the error code 1: the call returns normally (line 74 drops the code), one
field is recorded, and the mesh holds no field. -/
theorem RegisterField_add_field_code_dropped :
    (sample.emptyDomain.RegisterField (sample.externals 1) sample.pressure).2 = none ∧
    (sample.emptyDomain.RegisterField (sample.externals 1) sample.pressure).1.fields.length = 1 ∧
    DMGetNumFields
      (sample.emptyDomain.RegisterField (sample.externals 1) sample.pressure).1.dm = 0 := by
  decide

/-! ### The initial conditions of `Domain::InitializeSubDomains` -/

/-- The projection call made for one initialization whose name resolves to a field of the
mesh. -/
theorem projectInitialization_spec (ext : Externals) (self : Domain) (init : FieldFunction)
    (field : Field) (hfield : self.GetField init.name = some field) (h0 : 0 ≤ field.id)
    (h1 : field.id < DMGetNumFields self.dm) :
    ∃ call, projectInitialization ext self (DMGetNumFields self.dm) init = .returned call ∧
      projects self init field call := by
  have hn : field.id.toNat < self.dm.fields.length := by
    unfold DMGetNumFields at h1
    omega
  have hget : DMGetField self.dm field.id = some (self.dm.fields[field.id.toNat]) := by
    unfold DMGetField
    rw [if_pos h0]
    exact List.getElem?_eq_getElem hn
  unfold projectInitialization
  rw [hfield]
  dsimp only
  rw [if_pos ⟨h0, h1⟩]
  have hset : ∀ (α : Type) (a : Option α),
      (((List.replicate (DMGetNumFields self.dm).toNat (none : Option α)).set field.id.toNat
          a).length : Int) = DMGetNumFields self.dm ∧
      ((List.replicate (DMGetNumFields self.dm).toNat (none : Option α)).set field.id.toNat
          a)[field.id.toNat]? = some a ∧
      ∀ j, j < ((List.replicate (DMGetNumFields self.dm).toNat (none : Option α)).set
          field.id.toNat a).length → j ≠ field.id.toNat →
        ((List.replicate (DMGetNumFields self.dm).toNat (none : Option α)).set field.id.toNat
          a)[j]? = some none := by
    intro α a
    refine ⟨by simp [DMGetNumFields], by simp [DMGetNumFields, List.getElem?_set, hn], ?_⟩
    intro j hj hne
    have hj' : j < self.dm.fields.length := by simpa [DMGetNumFields] using hj
    simp [DMGetNumFields, List.getElem?_set, List.getElem?_replicate, hj', Ne.symm hne]
  obtain ⟨hfl, hfi, hfo⟩ := hset PetscFunction init.petscFunction
  obtain ⟨hcl, hci, hco⟩ := hset Context init.context
  have hlen : ((List.replicate (DMGetNumFields self.dm).toNat (none : Option PetscFunction)).set
      field.id.toNat init.petscFunction).length =
      ((List.replicate (DMGetNumFields self.dm).toNat (none : Option Context)).set
        field.id.toNat init.context).length := by simp
  cases hreg : init.region with
  | some region =>
    refine ⟨_, rfl, hfl, hcl, hfi, hci, ?_, rfl, rfl, ?_, ?_⟩
    · intro j hj hne
      exact ⟨hfo j hj hne, hco j (hlen ▸ hj) hne⟩
    · intro region2 h
      rw [hreg] at h
      have h : region = region2 := Option.some.inj h
      rw [← h]
      exact ⟨rfl, rfl⟩
    · intro h
      rw [hreg] at h
      exact absurd h (by simp)
  | none =>
    dsimp only
    rw [hget]
    rcases hf : self.dm.fields[field.id.toNat] with ⟨fieldLabel, fieldObject⟩
    refine ⟨_, rfl, hfl, hcl, hfi, hci, ?_, rfl, rfl, ?_, ?_⟩
    · intro j hj hne
      exact ⟨hfo j hj hne, hco j (hlen ▸ hj) hne⟩
    · intro region2 h
      rw [hreg] at h
      exact absurd h (by simp)
    · intro _
      refine ⟨fieldLabel, fieldObject, hget.trans (congrArg some hf), rfl, ?_, ?_⟩
      · intro hne
        cases fieldLabel with
        | none => exact absurd rfl hne
        | some l => rfl
      · intro he
        rw [he]
        rfl

/-- C7: when the name of every initialization resolves to a recorded field whose id is the
index of a field of the mesh, the loop returns, and it has made one projection call for each
initialization, in the order of the list, each as `projects` describes: arrays of length
`numberFields` with the function and the context of that initialization at the index of its
field and null elsewhere, the value of the region when it has one, otherwise the label the
field was added under with the value 1, or the null label with the value 0, and always the
solution vector of the domain as target. -/
theorem setInitialConditions_projections (ext : Externals) (self : Domain)
    (initializations : List FieldFunction)
    (hres : ∀ init ∈ initializations, ∃ field, self.GetField init.name = some field ∧
      0 ≤ field.id ∧ field.id < DMGetNumFields self.dm) :
    (self.setInitialConditions ext initializations).2 = .returned () ∧
    List.Forall₂
      (fun init call => ∃ field, self.GetField init.name = some field ∧
        projects self init field call)
      initializations (self.setInitialConditions ext initializations).1 := by
  unfold Domain.setInitialConditions
  induction initializations with
  | nil => exact ⟨rfl, List.Forall₂.nil⟩
  | cons init rest ih =>
    obtain ⟨field, hfield, h0, h1⟩ := hres init (by simp)
    obtain ⟨call, hcall, hprojects⟩ := projectInitialization_spec ext self init field hfield h0 h1
    obtain ⟨ih1, ih2⟩ := ih (fun i hi => hres i (List.mem_cons_of_mem _ hi))
    rw [projectInitializations, hcall]
    exact ⟨ih1, List.Forall₂.cons ⟨field, hfield, hprojects⟩ ih2⟩

/-- Witness of C7: the two projection calls made for `sample.initializations`. -/
theorem setInitialConditions_projections_witness :
    (sample.domainWithFields.setInitialConditions (sample.externals 0)
      sample.initializations).2 = .returned () ∧
    (sample.domainWithFields.setInitialConditions (sample.externals 0)
      sample.initializations).1 =
      [{ label := none, numIds := 1, ids := [0]
         funcs := [none, some { name := "pInit" }, none]
         ctxs := [none, some { name := "pCtx" }, none], X := some { name := "solution" } },
       { label := none, numIds := 1, ids := [3]
         funcs := [some { name := "uInit" }, none, none]
         ctxs := [none, none, none], X := some { name := "solution" } }] :=
  ⟨(setInitialConditions_projections (sample.externals 0) sample.domainWithFields
      sample.initializations (by decide)).1, by decide⟩

/-! ### The phases of `Domain::InitializeSubDomains` -/

open solver

/-- The first loop: the calls made are `Register` calls on a prefix of the solvers, in order,
each with the subDomain `GetSubDomain` returned for the region of the solver; the prefix is
the whole list when the loop returns; and the loop does not return when `GetSubDomain` throws
for some solver. -/
theorem registerSolvers_spec (ext : Externals) (self : Domain) (solvers : List Solver) :
    ∃ r : List (Solver × SubDomain),
      (registerSolvers ext self solvers).1 = r.map (fun x => Event.Register x.1 x.2) ∧
      r.map Prod.fst <+: solvers ∧
      (∀ x ∈ r, self.GetSubDomain ext x.1.region = .returned x.2) ∧
      ((registerSolvers ext self solvers).2 = .returned () → r.map Prod.fst = solvers) ∧
      ((∃ solver ∈ solvers, ∃ e, self.GetSubDomain ext solver.region = .raised e) →
        (registerSolvers ext self solvers).2 ≠ .returned ()) := by
  induction solvers with
  | nil =>
    refine ⟨[], rfl, List.prefix_rfl, by simp, fun _ => rfl, ?_⟩
    rintro ⟨solver, hmem, _⟩
    exact absurd hmem (by simp)
  | cons solver rest ih =>
    obtain ⟨r, htrace, hprefix, hsub, hall, hraise⟩ := ih
    rw [registerSolvers]
    cases hG : self.GetSubDomain ext solver.region with
    | returned subDomain =>
      cases hR : solver.Register with
      | some e =>
        refine ⟨[(solver, subDomain)], rfl, ?_, ?_, ?_, ?_⟩
        · exact List.prefix_append [solver] rest
        · intro x hx
          rw [List.mem_singleton.1 hx]
          exact hG
        · intro h
          exact absurd h (by simp)
        · intro _ h
          exact absurd h (by simp)
      | none =>
        refine ⟨(solver, subDomain) :: r, ?_, ?_, ?_, ?_, ?_⟩
        · simp [htrace]
        · simpa using hprefix
        · intro x hx
          rcases List.mem_cons.1 hx with hx | hx
          · rw [hx]
            exact hG
          · exact hsub x hx
        · intro h
          have := hall h
          simp [this]
        · rintro ⟨solver2, hmem, e, he⟩
          rcases List.mem_cons.1 hmem with hs | hs
          · rw [hs, hG] at he
            exact absurd he (by simp)
          · exact hraise ⟨solver2, hs, e, he⟩
    | raised e =>
      refine ⟨[], rfl, List.nil_prefix, by simp, ?_, ?_⟩
      · intro h
        exact absurd h (by simp)
      · intro _ h
        exact absurd h (by simp)
    | undefined =>
      refine ⟨[], rfl, List.nil_prefix, by simp, ?_, ?_⟩
      · intro h
        exact absurd h (by simp)
      · intro _ h
        exact absurd h (by simp)

/-- A loop over the solvers calling one method: the calls made are on a prefix of the solvers,
in order, and on all of them when the loop returns. -/
theorem callEach_spec (method : Solver → Option Exception) (event : Solver → Event)
    (solvers : List Solver) :
    ∃ s : List Solver, (callEach method event solvers).1 = s.map event ∧ s <+: solvers ∧
      ((callEach method event solvers).2 = .returned () → s = solvers) := by
  induction solvers with
  | nil => exact ⟨[], rfl, List.prefix_rfl, fun _ => rfl⟩
  | cons solver rest ih =>
    obtain ⟨s, htrace, hprefix, hall⟩ := ih
    rw [callEach]
    cases hm : method solver with
    | some e =>
      refine ⟨[solver], rfl, List.prefix_append [solver] rest, ?_⟩
      intro h
      exact absurd h (by simp)
    | none =>
      refine ⟨solver :: s, by simp [htrace], by simpa using hprefix, ?_⟩
      intro h
      have := hall h
      simp [this]

/-- The loop over the initializations makes at most one projection call for each of them, and
exactly one for each when it returns. -/
theorem projectInitializations_length (ext : Externals) (self : Domain) (numberFields : Int)
    (initializations : List FieldFunction) :
    (projectInitializations ext self numberFields initializations).1.length ≤
      initializations.length ∧
    ((projectInitializations ext self numberFields initializations).2 = .returned () →
      (projectInitializations ext self numberFields initializations).1.length =
        initializations.length) := by
  induction initializations with
  | nil => exact ⟨le_refl _, fun _ => rfl⟩
  | cons init rest ih =>
    obtain ⟨hle, heq⟩ := ih
    rw [projectInitializations]
    cases hp : projectInitialization ext self numberFields init with
    | returned call =>
      refine ⟨by simpa using hle, ?_⟩
      intro h
      have := heq h
      simp [this]
    | raised e =>
      refine ⟨by simp, ?_⟩
      intro h
      exact absurd h (by simp)
    | undefined =>
      refine ⟨by simp, ?_⟩
      intro h
      exact absurd h (by simp)

/-- The method `CreateStructures` does not throw, and when it returns the domain differs from
the one before in its solution vector only. -/
theorem CreateStructures_cases (self : Domain) :
    self.CreateStructures = .undefined ∨
      ∃ names, self.CreateStructures =
        .returned ({ self with solField := some { name := "solution" } }, names) := by
  unfold Domain.CreateStructures
  cases nameFields self.fields with
  | none => exact Or.inl rfl
  | some names => exact Or.inr ⟨names, rfl⟩

theorem InitializeSubDomains_of_register (ext : Externals) (self : Domain)
    (solvers : List Solver) (inits : List FieldFunction) (t₁ : List Event) (o₁ : Outcome Unit)
    (h₁ : registerSolvers ext self solvers = (t₁, o₁)) (ho : o₁ ≠ .returned ()) :
    self.InitializeSubDomains ext solvers inits = (t₁, o₁) := by
  unfold Domain.InitializeSubDomains
  rw [h₁]
  cases o₁ with
  | returned u => exact absurd rfl ho
  | raised e => rfl
  | undefined => rfl

theorem InitializeSubDomains_of_setup (ext : Externals) (self : Domain)
    (solvers : List Solver) (inits : List FieldFunction) (t₁ t₂ : List Event)
    (o₂ : Outcome Unit) (h₁ : registerSolvers ext self solvers = (t₁, .returned ()))
    (h₂ : callEach Solver.Setup Event.Setup solvers = (t₂, o₂)) (ho : o₂ ≠ .returned ()) :
    self.InitializeSubDomains ext solvers inits = (t₁ ++ t₂, o₂) := by
  unfold Domain.InitializeSubDomains
  rw [h₁]
  dsimp only
  rw [h₂]
  cases o₂ with
  | returned u => exact absurd rfl ho
  | raised e => rfl
  | undefined => rfl

theorem InitializeSubDomains_of_structures (ext : Externals) (self : Domain)
    (solvers : List Solver) (inits : List FieldFunction) (t₁ t₂ : List Event)
    (h₁ : registerSolvers ext self solvers = (t₁, .returned ()))
    (h₂ : callEach Solver.Setup Event.Setup solvers = (t₂, .returned ()))
    (h₃ : self.CreateStructures = .undefined) :
    self.InitializeSubDomains ext solvers inits =
      (t₁ ++ t₂ ++ [Event.CreateStructures], .undefined) := by
  unfold Domain.InitializeSubDomains
  rw [h₁]
  dsimp only
  rw [h₂]
  dsimp only
  rw [h₃]

theorem InitializeSubDomains_of_projection (ext : Externals) (self self1 : Domain)
    (solvers : List Solver) (inits : List FieldFunction) (t₁ t₂ : List Event)
    (names : List (Int × Int × String)) (calls : List ProjectionCall) (o₄ : Outcome Unit)
    (h₁ : registerSolvers ext self solvers = (t₁, .returned ()))
    (h₂ : callEach Solver.Setup Event.Setup solvers = (t₂, .returned ()))
    (h₃ : self.CreateStructures = .returned (self1, names))
    (h₄ : self1.setInitialConditions ext inits = (calls, o₄)) (ho : o₄ ≠ .returned ()) :
    self.InitializeSubDomains ext solvers inits =
      (t₁ ++ t₂ ++ structureEvents self1 ++ calls.map Event.Project, o₄) := by
  unfold Domain.InitializeSubDomains
  rw [h₁]
  dsimp only
  rw [h₂]
  dsimp only
  rw [h₃]
  dsimp only
  rw [h₄]
  cases o₄ with
  | returned u => exact absurd rfl ho
  | raised e => rfl
  | undefined => rfl

theorem InitializeSubDomains_of_projected (ext : Externals) (self self1 : Domain)
    (solvers : List Solver) (inits : List FieldFunction) (t₁ t₂ : List Event)
    (names : List (Int × Int × String)) (calls : List ProjectionCall)
    (h₁ : registerSolvers ext self solvers = (t₁, .returned ()))
    (h₂ : callEach Solver.Setup Event.Setup solvers = (t₂, .returned ()))
    (h₃ : self.CreateStructures = .returned (self1, names))
    (h₄ : self1.setInitialConditions ext inits = (calls, .returned ())) :
    self.InitializeSubDomains ext solvers inits =
      (t₁ ++ t₂ ++ structureEvents self1 ++ calls.map Event.Project ++
          (callEach Solver.Initialize Event.Initialize solvers).1,
        (callEach Solver.Initialize Event.Initialize solvers).2) := by
  unfold Domain.InitializeSubDomains
  rw [h₁]
  dsimp only
  rw [h₂]
  dsimp only
  rw [h₃]
  dsimp only
  rw [h₄]
  rfl

theorem structureEvents_phase (self : Domain) (c : List Event)
    (hc : c <+: structureEvents self) :
    (∀ e ∈ c, 2 ≤ e.phase ∧ e.phase ≤ 3) ∧
    c.Pairwise (fun a b => a.phase ≤ b.phase) := by
  have hfull : ∀ e ∈ structureEvents self, 2 ≤ e.phase ∧ e.phase ≤ 3 := by
    intro e he
    unfold structureEvents at he
    rcases List.mem_cons.1 he with he | he
    · rw [he]
      exact ⟨le_refl _, by decide⟩
    · obtain ⟨sd, _, rfl⟩ := List.mem_map.1 he
      exact ⟨Nat.le_succ 2, le_refl _⟩
  have hsorted : (structureEvents self).Pairwise (fun a b => a.phase ≤ b.phase) := by
    unfold structureEvents
    rw [List.pairwise_cons]
    refine ⟨?_, ?_⟩
    · intro b hb
      obtain ⟨sd, _, rfl⟩ := List.mem_map.1 hb
      exact Nat.le_succ 2
    · apply List.pairwise_of_forall_mem_list
      intro a ha b hb
      obtain ⟨sa, _, rfl⟩ := List.mem_map.1 ha
      obtain ⟨sb, _, rfl⟩ := List.mem_map.1 hb
      exact le_refl _
  exact ⟨fun e he => hfull e (hc.subset he), hsorted.sublist hc.sublist⟩

/-- A trace made of the five phases in order has its calls sorted by phase. -/
theorem phases_sorted (self : Domain) (r : List (Solver × SubDomain)) (s : List Solver)
    (c : List Event) (p : List ProjectionCall) (i : List Solver)
    (hc : c <+: structureEvents self) :
    (r.map (fun x => Event.Register x.1 x.2) ++ s.map Event.Setup ++ c ++
      p.map Event.Project ++ i.map Event.Initialize).Pairwise
        (fun a b => a.phase ≤ b.phase) := by
  obtain ⟨hcb, hcs⟩ := structureEvents_phase self c hc
  have hr : ∀ e ∈ r.map (fun x => Event.Register x.1 x.2), e.phase = 0 := by
    intro e he
    obtain ⟨x, _, rfl⟩ := List.mem_map.1 he
    rfl
  have hs : ∀ e ∈ s.map Event.Setup, e.phase = 1 := by
    intro e he
    obtain ⟨x, _, rfl⟩ := List.mem_map.1 he
    rfl
  have hp : ∀ e ∈ p.map Event.Project, e.phase = 4 := by
    intro e he
    obtain ⟨x, _, rfl⟩ := List.mem_map.1 he
    rfl
  have hi : ∀ e ∈ i.map Event.Initialize, e.phase = 5 := by
    intro e he
    obtain ⟨x, _, rfl⟩ := List.mem_map.1 he
    rfl
  have same : ∀ (l : List Event) (k : Nat), (∀ e ∈ l, e.phase = k) →
      l.Pairwise (fun a b => a.phase ≤ b.phase) := by
    intro l k hl
    apply List.pairwise_of_forall_mem_list
    intro a ha b hb
    rw [hl a ha, hl b hb]
  refine List.pairwise_append.2 ⟨List.pairwise_append.2 ⟨List.pairwise_append.2
    ⟨List.pairwise_append.2 ⟨same _ 0 hr, same _ 1 hs, ?_⟩, hcs, ?_⟩, same _ 4 hp, ?_⟩,
    same _ 5 hi, ?_⟩
  · intro a ha b hb
    rw [hr a ha, hs b hb]
    decide
  · intro a ha b hb
    have hb2 := (hcb b hb).1
    rcases List.mem_append.1 ha with ha | ha
    · rw [hr a ha]
      omega
    · rw [hs a ha]
      omega
  · intro a ha b hb
    rw [hp b hb]
    rcases List.mem_append.1 ha with ha | ha
    · rcases List.mem_append.1 ha with ha | ha
      · rw [hr a ha]
        decide
      · rw [hs a ha]
        decide
    · have := (hcb a ha).2
      omega
  · intro a ha b hb
    rw [hi b hb]
    rcases List.mem_append.1 ha with ha | ha
    · rcases List.mem_append.1 ha with ha | ha
      · rcases List.mem_append.1 ha with ha | ha
        · rw [hr a ha]
          decide
        · rw [hs a ha]
          decide
      · have := (hcb a ha).2
        omega
    · rw [hp a ha]
      decide

/-- C11: the calls `InitializeSubDomains` makes are, in this order, `Register` calls, `Setup`
calls, the structure calls (`CreateStructures`, then `CreateSubDomainStructures`), projection
calls and `Initialize` calls, so the trace is sorted by phase.  Within each phase the solvers
are visited in list order: each phase covers a prefix of the list, and every `Register` has
the subDomain `GetSubDomain` returned for the region of its solver.  A phase has begun only
when every earlier phase ran to its end, so all `Register` calls precede any `Setup`, all
`Setup` calls precede the structure calls, those precede any projection, and all projections
precede any `Initialize`.  When the method returns every phase ran to its end.  When
`GetSubDomain` throws for some solver, the method does not return and no call other than
`Register` has been made. -/
theorem InitializeSubDomains_phase_order (ext : Externals) (self : Domain)
    (solvers : List Solver) (inits : List FieldFunction) :
    ∃ (r : List (Solver × SubDomain)) (s : List Solver) (c : List Event)
      (p : List ProjectionCall) (i : List Solver),
      (self.InitializeSubDomains ext solvers inits).1 =
        r.map (fun x => Event.Register x.1 x.2) ++ s.map Event.Setup ++ c ++
          p.map Event.Project ++ i.map Event.Initialize ∧
      (r.map Prod.fst <+: solvers ∧
        ∀ x ∈ r, self.GetSubDomain ext x.1.region = .returned x.2) ∧
      (s <+: solvers ∧ c <+: structureEvents self ∧ p.length ≤ inits.length ∧
        i <+: solvers) ∧
      ((s ≠ [] ∨ c ≠ [] ∨ p ≠ [] ∨ i ≠ [] → r.map Prod.fst = solvers) ∧
        (c ≠ [] ∨ p ≠ [] ∨ i ≠ [] → s = solvers) ∧
        (p ≠ [] ∨ i ≠ [] → c = structureEvents self) ∧
        (i ≠ [] → p.length = inits.length)) ∧
      ((self.InitializeSubDomains ext solvers inits).2 = .returned () →
        r.map Prod.fst = solvers ∧ s = solvers ∧ c = structureEvents self ∧
        p.length = inits.length ∧ i = solvers) ∧
      ((∃ solver ∈ solvers, ∃ e, self.GetSubDomain ext solver.region = .raised e) →
        s = [] ∧ c = [] ∧ p = [] ∧ i = [] ∧
        (self.InitializeSubDomains ext solvers inits).2 ≠ .returned ()) ∧
      (self.InitializeSubDomains ext solvers inits).1.Pairwise
        (fun a b => a.phase ≤ b.phase) := by
  obtain ⟨r, hr1, hr2, hr3, hr4, hr5⟩ := registerSolvers_spec ext self solvers
  rcases h₁ : registerSolvers ext self solvers with ⟨t₁, o₁⟩
  rw [h₁] at hr1 hr4 hr5
  dsimp only at hr1 hr4 hr5
  by_cases ho1 : o₁ = .returned ()
  · subst ho1
    have hrfull := hr4 rfl
    have hnoraise : ¬ ∃ solver ∈ solvers, ∃ e,
        self.GetSubDomain ext solver.region = .raised e := fun h => hr5 h rfl
    obtain ⟨s, hs1, hs2, hs3⟩ := callEach_spec Solver.Setup Event.Setup solvers
    rcases h₂ : callEach Solver.Setup Event.Setup solvers with ⟨t₂, o₂⟩
    rw [h₂] at hs1 hs3
    dsimp only at hs1 hs3
    by_cases ho2 : o₂ = .returned ()
    · subst ho2
      have hsfull := hs3 rfl
      rcases CreateStructures_cases self with h₃ | ⟨names, h₃⟩
      · have heq := InitializeSubDomains_of_structures ext self solvers inits t₁ t₂ h₁ h₂ h₃
        have hc : [Event.CreateStructures] <+: structureEvents self :=
          List.prefix_append [Event.CreateStructures] _
        have htrace : (self.InitializeSubDomains ext solvers inits).1 =
            r.map (fun x => Event.Register x.1 x.2) ++ s.map Event.Setup ++
              [Event.CreateStructures] ++ ([] : List ProjectionCall).map Event.Project ++
              ([] : List Solver).map Event.Initialize := by
          rw [heq, hr1, hs1]
          simp
        refine ⟨r, s, [Event.CreateStructures], [], [], htrace, ⟨hr2, hr3⟩,
          ⟨hs2, hc, Nat.zero_le _, List.nil_prefix⟩,
          ⟨fun _ => hrfull, fun _ => hsfull, by simp, by simp⟩, ?_, ?_, ?_⟩
        · intro h
          rw [heq] at h
          exact absurd h (by simp)
        · intro h
          exact absurd h hnoraise
        · rw [htrace]
          exact phases_sorted self r s _ _ _ hc
      · rcases h₄ : Domain.setInitialConditions ext
            { self with solField := some { name := "solution" } } inits with ⟨calls, o₄⟩
        have hlen := projectInitializations_length ext
          { self with solField := some { name := "solution" } }
          (DMGetNumFields self.dm) inits
        have hlen1 : calls.length ≤ inits.length := by
          have := hlen.1
          unfold Domain.setInitialConditions at h₄
          rw [h₄] at this
          exact this
        have hlen2 : o₄ = .returned () → calls.length = inits.length := by
          intro ho
          have := hlen.2
          unfold Domain.setInitialConditions at h₄
          rw [h₄] at this
          exact this ho
        by_cases ho4 : o₄ = .returned ()
        · subst ho4
          obtain ⟨i, hi1, hi2, hi3⟩ := callEach_spec Solver.Initialize Event.Initialize solvers
          have heq := InitializeSubDomains_of_projected ext self _ solvers inits t₁ t₂ names
            calls h₁ h₂ h₃ h₄
          have htrace : (self.InitializeSubDomains ext solvers inits).1 =
              r.map (fun x => Event.Register x.1 x.2) ++ s.map Event.Setup ++
                structureEvents self ++ calls.map Event.Project ++
                i.map Event.Initialize := by
            rw [heq, hr1, hs1]
            dsimp only
            rw [hi1]
            rfl
          refine ⟨r, s, structureEvents self, calls, i, htrace, ⟨hr2, hr3⟩,
            ⟨hs2, List.prefix_rfl, hlen1, hi2⟩,
            ⟨fun _ => hrfull, fun _ => hsfull, fun _ => rfl, fun _ => hlen2 rfl⟩, ?_, ?_, ?_⟩
          · intro h
            rw [heq] at h
            exact ⟨hrfull, hsfull, rfl, hlen2 rfl, hi3 h⟩
          · intro h
            exact absurd h hnoraise
          · rw [htrace]
            exact phases_sorted self r s _ _ _ List.prefix_rfl
        · have heq := InitializeSubDomains_of_projection ext self _ solvers inits t₁ t₂ names
            calls o₄ h₁ h₂ h₃ h₄ ho4
          have htrace : (self.InitializeSubDomains ext solvers inits).1 =
              r.map (fun x => Event.Register x.1 x.2) ++ s.map Event.Setup ++
                structureEvents self ++ calls.map Event.Project ++
                ([] : List Solver).map Event.Initialize := by
            rw [heq, hr1, hs1]
            simp [structureEvents]
          refine ⟨r, s, structureEvents self, calls, [], htrace, ⟨hr2, hr3⟩,
            ⟨hs2, List.prefix_rfl, hlen1, List.nil_prefix⟩,
            ⟨fun _ => hrfull, fun _ => hsfull, fun _ => rfl, by simp⟩, ?_, ?_, ?_⟩
          · intro h
            rw [heq] at h
            exact absurd h ho4
          · intro h
            exact absurd h hnoraise
          · rw [htrace]
            exact phases_sorted self r s _ _ _ List.prefix_rfl
    · have heq := InitializeSubDomains_of_setup ext self solvers inits t₁ t₂ o₂ h₁ h₂ ho2
      have htrace : (self.InitializeSubDomains ext solvers inits).1 =
          r.map (fun x => Event.Register x.1 x.2) ++ s.map Event.Setup ++ [] ++
            ([] : List ProjectionCall).map Event.Project ++
            ([] : List Solver).map Event.Initialize := by
        rw [heq, hr1, hs1]
        simp
      refine ⟨r, s, [], [], [], htrace, ⟨hr2, hr3⟩,
        ⟨hs2, List.nil_prefix, Nat.zero_le _, List.nil_prefix⟩,
        ⟨fun _ => hrfull, by simp, by simp, by simp⟩, ?_, ?_, ?_⟩
      · intro h
        rw [heq] at h
        exact absurd h ho2
      · intro h
        exact absurd h hnoraise
      · rw [htrace]
        exact phases_sorted self r s _ _ _ List.nil_prefix
  · have heq := InitializeSubDomains_of_register ext self solvers inits t₁ o₁ h₁ ho1
    have htrace : (self.InitializeSubDomains ext solvers inits).1 =
        r.map (fun x => Event.Register x.1 x.2) ++ ([] : List Solver).map Event.Setup ++ [] ++
          ([] : List ProjectionCall).map Event.Project ++
          ([] : List Solver).map Event.Initialize := by
      rw [heq, hr1]
      simp
    refine ⟨r, [], [], [], [], htrace, ⟨hr2, hr3⟩,
      ⟨List.nil_prefix, List.nil_prefix, Nat.zero_le _, List.nil_prefix⟩,
      ⟨by simp, by simp, by simp, by simp⟩, ?_, ?_, ?_⟩
    · intro h
      rw [heq] at h
      exact absurd h ho1
    · intro _
      refine ⟨rfl, rfl, rfl, rfl, ?_⟩
      rw [heq]
      exact ho1
    · rw [htrace]
      exact phases_sorted self r [] _ _ _ List.nil_prefix

/-- A run of `InitializeSubDomains` that returns: one solver on the whole domain and the two
initializations of `sample.initializations`. -/
theorem InitializeSubDomains_sample_run :
    (sample.domainWithFields.InitializeSubDomains (sample.externals 0) [sample.flowSolver]
        sample.initializations).2 = .returned () ∧
    (sample.domainWithFields.InitializeSubDomains (sample.externals 0) [sample.flowSolver]
        sample.initializations).1.map Event.phase = [0, 1, 2, 3, 4, 4, 5] := by
  decide

/-- A run of `InitializeSubDomains` in which `GetSubDomain` throws for the second solver: the
first solver has been registered and nothing else has been called. -/
theorem InitializeSubDomains_sample_stray_region :
    sample.domainWithFields.InitializeSubDomains (sample.externals 0)
        [sample.flowSolver, sample.strayRegionSolver] sample.initializations =
      ([Event.Register sample.flowSolver { ds := 0, auxFields := [] }],
        .raised (.runtime_error "Unable to locate subDomain for region outlet")) := by
  decide

end domain

namespace finiteElement

open domain

/-! ### `LowMachFlowSolver::Setup` -/

theorem checkSubId_of_found (sx : SolverExternals) (self : SolverState) (fieldName : String)
    (expected found : Int) (what : Int → String)
    (h : self.GetFieldSubId fieldName = some found) :
    checkSubId sx self fieldName expected what =
      if expected ≠ found then some (.invalid_argument (what found)) else none := by
  unfold checkSubId
  rw [h]

/-- The three checks of `Setup`, once the base class `Setup` has returned and the three fields
exist. -/
theorem Setup_eq (en : LowMachFlowEnumerators) (sx : SolverExternals) (self self1 : SolverState)
    (v p t : Int) (hbase : sx.FiniteElementSolverSetup self = (self1, none))
    (hv : self1.GetFieldSubId "velocity" = some v)
    (hp : self1.GetFieldSubId "pressure" = some p)
    (ht : self1.GetFieldSubId "temperature" = some t) :
    LowMachFlowSolver.Setup en sx self =
      if en.VEL ≠ v then
        (self1, some (.invalid_argument
          ("The velocity field subId is expected to be " ++ toString en.VEL ++
            ", but found to be " ++ toString v)))
      else if en.PRES ≠ p then
        (self1, some (.invalid_argument
          ("The pressure field subId is expected to be " ++ toString en.PRES ++
            ", but found to be " ++ toString p)))
      else if en.TEMP ≠ t then
        (self1, some (.invalid_argument
          ("The temperature field subId is expected to be " ++ toString en.TEMP ++
            ", but found to be " ++ toString t)))
      else
        ({ self1 with
            nullspace := self1.nullspace ++ [en.PRES]
            prob := wireProblem en sx self1.prob }, none) := by
  unfold LowMachFlowSolver.Setup
  rw [hbase]
  simp only [checkSubId_of_found sx self1 _ _ _ _ hv, checkSubId_of_found sx self1 _ _ _ _ hp,
    checkSubId_of_found sx self1 _ _ _ _ ht]
  by_cases h1 : en.VEL = v
  · by_cases h2 : en.PRES = p
    · by_cases h3 : en.TEMP = t
      · simp [h1, h2, h3]
      · simp [h1, h2, h3]
    · simp [h1, h2]
  · simp [h1]

/-- C5: when the base class `Setup` has returned and the subDomain has the fields velocity,
pressure and temperature with subIds `v`, `p`, `t`: `Setup` throws exactly when `v` is not
`VEL` or `p` is not `PRES` or `t` is not `TEMP`, and then a `std::invalid_argument`; the checks
are made in that order, the message naming the first field out of place, the subId expected
and the subId found; and when it throws, the state, and so the problem object, is as the base
class `Setup` left it: no residual, Jacobian or constant has been registered. -/
theorem Setup_field_order_check (en : LowMachFlowEnumerators) (sx : SolverExternals)
    (self self1 : SolverState) (v p t : Int)
    (hbase : sx.FiniteElementSolverSetup self = (self1, none))
    (hv : self1.GetFieldSubId "velocity" = some v)
    (hp : self1.GetFieldSubId "pressure" = some p)
    (ht : self1.GetFieldSubId "temperature" = some t) :
    ((∃ e, (LowMachFlowSolver.Setup en sx self).2 = some e) ↔
      (v ≠ en.VEL ∨ p ≠ en.PRES ∨ t ≠ en.TEMP)) ∧
    (∀ e, (LowMachFlowSolver.Setup en sx self).2 = some e → e.isInvalidArgument = true) ∧
    (v ≠ en.VEL →
      (LowMachFlowSolver.Setup en sx self).2 = some (.invalid_argument
        ("The velocity field subId is expected to be " ++ toString en.VEL ++
          ", but found to be " ++ toString v))) ∧
    (v = en.VEL → p ≠ en.PRES →
      (LowMachFlowSolver.Setup en sx self).2 = some (.invalid_argument
        ("The pressure field subId is expected to be " ++ toString en.PRES ++
          ", but found to be " ++ toString p))) ∧
    (v = en.VEL → p = en.PRES → t ≠ en.TEMP →
      (LowMachFlowSolver.Setup en sx self).2 = some (.invalid_argument
        ("The temperature field subId is expected to be " ++ toString en.TEMP ++
          ", but found to be " ++ toString t))) ∧
    (∀ e, (LowMachFlowSolver.Setup en sx self).2 = some e →
      (LowMachFlowSolver.Setup en sx self).1 = self1 ∧
      (LowMachFlowSolver.Setup en sx self).1.prob.residuals = self1.prob.residuals ∧
      (LowMachFlowSolver.Setup en sx self).1.prob.jacobians = self1.prob.jacobians ∧
      (LowMachFlowSolver.Setup en sx self).1.prob.constants = self1.prob.constants) := by
  rw [Setup_eq en sx self self1 v p t hbase hv hp ht]
  by_cases h1 : en.VEL = v
  · by_cases h2 : en.PRES = p
    · by_cases h3 : en.TEMP = t
      · subst h1 h2 h3
        simp
      · subst h1 h2
        have h3' : ¬ t = en.TEMP := fun h => h3 h.symm
        simp [h3, h3', Exception.isInvalidArgument]
    · subst h1
      have h2' : ¬ p = en.PRES := fun h => h2 h.symm
      simp [h2, h2', Exception.isInvalidArgument]
  · have h1' : ¬ v = en.VEL := fun h => h1 h.symm
    simp [h1, h1', Exception.isInvalidArgument]

/-- Witness of C5: the checks on a subDomain in which pressure and temperature are swapped. -/
theorem Setup_field_order_check_witness :
    (LowMachFlowSolver.Setup sample.enumerators sample.solverExternals sample.swappedSolver).2 =
      some (.invalid_argument
        "The pressure field subId is expected to be 1, but found to be 2") ∧
    (LowMachFlowSolver.Setup sample.enumerators sample.solverExternals sample.swappedSolver).1 =
      sample.swappedSolver := by
  have h := Setup_field_order_check sample.enumerators sample.solverExternals
    sample.swappedSolver sample.swappedSolver 0 2 1 rfl (by decide) (by decide) (by decide)
  refine ⟨?_, ?_⟩
  · have h4 := h.2.2.2.1 rfl (by decide)
    rw [h4]
    decide
  · have h4 := h.2.2.2.1 rfl (by decide)
    exact (h.2.2.2.2.2 _ h4).1

/-- C6: when the base class `Setup` has returned, the three fields are at their expected
subIds, and the field enumerators and the test-function enumerators are pairwise distinct:
`Setup` returns; it has registered, after what the problem object held, a residual for
`VTEST`, `WTEST` and `QTEST`, the last without gradient term, and a Jacobian block for the
seven pairs `(VTEST,VEL)`, `(VTEST,PRES)`, `(VTEST,TEMP)`, `(QTEST,VEL)`, `(QTEST,TEMP)`,
`(WTEST,VEL)`, `(WTEST,TEMP)` and for no other; no pair twice, none for `(QTEST,PRES)` or
`(WTEST,PRES)`; and the constants it set are `TOTAL_LOW_MACH_FLOW_PARAMETERS` in count and
in array length. -/
theorem Setup_wiring_table (en : LowMachFlowEnumerators) (sx : SolverExternals)
    (self self1 : SolverState)
    (hbase : sx.FiniteElementSolverSetup self = (self1, none))
    (hv : self1.GetFieldSubId "velocity" = some en.VEL)
    (hp : self1.GetFieldSubId "pressure" = some en.PRES)
    (ht : self1.GetFieldSubId "temperature" = some en.TEMP)
    (hfields : [en.VEL, en.PRES, en.TEMP].Nodup)
    (htests : [en.VTEST, en.WTEST, en.QTEST].Nodup) :
    (LowMachFlowSolver.Setup en sx self).2 = none ∧
    (LowMachFlowSolver.Setup en sx self).1.prob.residuals =
      self1.prob.residuals ++
        [{ f := en.VTEST, f0 := some .LowMachFlow_vIntegrandTestFunction
           f1 := some .LowMachFlow_vIntegrandTestGradientFunction },
         { f := en.WTEST, f0 := some .LowMachFlow_wIntegrandTestFunction
           f1 := some .LowMachFlow_wIntegrandTestGradientFunction },
         { f := en.QTEST, f0 := some .LowMachFlow_qIntegrandTestFunction, f1 := none }] ∧
    (∃ added,
      (LowMachFlowSolver.Setup en sx self).1.prob.jacobians = self1.prob.jacobians ++ added ∧
      added.map (fun c => (c.f, c.g)) =
        [(en.VTEST, en.VEL), (en.VTEST, en.PRES), (en.VTEST, en.TEMP), (en.QTEST, en.VEL),
         (en.QTEST, en.TEMP), (en.WTEST, en.VEL), (en.WTEST, en.TEMP)] ∧
      (added.map (fun c => (c.f, c.g))).Nodup ∧
      (en.QTEST, en.PRES) ∉ added.map (fun c => (c.f, c.g)) ∧
      (en.WTEST, en.PRES) ∉ added.map (fun c => (c.f, c.g))) ∧
    (∃ parameterArray,
      (LowMachFlowSolver.Setup en sx self).1.prob.constants =
        some ((en.TOTAL_LOW_MACH_FLOW_PARAMETERS : Int), parameterArray) ∧
      parameterArray.length = en.TOTAL_LOW_MACH_FLOW_PARAMETERS) := by
  rw [Setup_eq en sx self self1 en.VEL en.PRES en.TEMP hbase hv hp ht,
    if_neg (not_not.2 rfl), if_neg (not_not.2 rfl), if_neg (not_not.2 rfl)]
  have hf : (en.VEL ≠ en.PRES ∧ en.VEL ≠ en.TEMP) ∧ en.PRES ≠ en.TEMP := by
    simpa using hfields
  have hte : (en.VTEST ≠ en.WTEST ∧ en.VTEST ≠ en.QTEST) ∧ en.WTEST ≠ en.QTEST := by
    simpa using htests
  obtain ⟨⟨hf1, hf2⟩, hf3⟩ := hf
  obtain ⟨⟨ht1, ht2⟩, ht3⟩ := hte
  refine ⟨rfl, ?_,
    ⟨[⟨en.VTEST, en.VEL, some .LowMachFlow_g0_vu, some .LowMachFlow_g1_vu, none,
        some .LowMachFlow_g3_vu⟩,
      ⟨en.VTEST, en.PRES, none, none, some .LowMachFlow_g2_vp, none⟩,
      ⟨en.VTEST, en.TEMP, some .LowMachFlow_g0_vT, none, none, none⟩,
      ⟨en.QTEST, en.VEL, some .LowMachFlow_g0_qu, some .LowMachFlow_g1_qu, none, none⟩,
      ⟨en.QTEST, en.TEMP, some .LowMachFlow_g0_qT, some .LowMachFlow_g1_qT, none, none⟩,
      ⟨en.WTEST, en.VEL, some .LowMachFlow_g0_wu, none, none, none⟩,
      ⟨en.WTEST, en.TEMP, some .LowMachFlow_g0_wT, some .LowMachFlow_g1_wT, none,
        some .LowMachFlow_g3_wT⟩], ?_, rfl, ?_, ?_, ?_⟩,
    ⟨(List.range en.TOTAL_LOW_MACH_FLOW_PARAMETERS).map sx.Fill, rfl, ?_⟩⟩
  · simp [wireProblem, PetscDSSetResidual, PetscDSSetJacobian, PetscDSSetConstants]
  · simp [wireProblem, PetscDSSetResidual, PetscDSSetJacobian, PetscDSSetConstants]
  · simp [hf1, hf2, hf3, ht1, ht2, ht3, Ne.symm hf1, Ne.symm hf2, Ne.symm hf3, Ne.symm ht1,
      Ne.symm ht2, Ne.symm ht3]
  · simp [hf1, hf2, hf3, ht1, ht2, ht3, Ne.symm hf1, Ne.symm hf2, Ne.symm hf3, Ne.symm ht1,
      Ne.symm ht2, Ne.symm ht3]
  · simp [hf1, hf2, hf3, ht1, ht2, ht3, Ne.symm hf1, Ne.symm hf2, Ne.symm hf3, Ne.symm ht1,
      Ne.symm ht2, Ne.symm ht3]
  · simp

/-- Witness of C6: the wiring on a subDomain whose fields are in the expected order. -/
theorem Setup_wiring_table_witness :
    (LowMachFlowSolver.Setup sample.enumerators sample.solverExternals sample.orderedSolver).2 =
      none ∧
    ((LowMachFlowSolver.Setup sample.enumerators sample.solverExternals
      sample.orderedSolver).1.prob.jacobians.map (fun c => (c.f, c.g))) =
        [(0, 0), (0, 1), (0, 2), (1, 0), (1, 2), (2, 0), (2, 2)] := by
  have h := Setup_wiring_table sample.enumerators sample.solverExternals sample.orderedSolver
    sample.orderedSolver rfl (by decide) (by decide) (by decide) (by decide) (by decide)
  exact ⟨h.1, by decide⟩

/-! ### The pressure null space -/

/-- The loop writes `value` to the entries `d .. Nc-1` and to no other entry, provided the
fuel covers the iterations left. -/
theorem fillLoop_apply (value : PetscScalar) (Nc : Int) :
    ∀ (fuel : Nat) (d : Int) (u : Int → PetscScalar) (k : Int), (Nc - d).toNat ≤ fuel →
      fillLoop value Nc fuel d u k = if d ≤ k ∧ k < Nc then value else u k := by
  intro fuel
  induction fuel with
  | zero =>
    intro d u k hfuel
    have hcond : ¬ (d ≤ k ∧ k < Nc) := by omega
    rw [if_neg hcond]
    rfl
  | succ n ih =>
    intro d u k hfuel
    rw [fillLoop]
    by_cases hd : d < Nc
    · rw [if_pos hd, ih (d + 1) (Function.update u d value) k (by omega)]
      by_cases hk : k = d
      · subst hk
        have h1 : ¬ (k + 1 ≤ k ∧ k < Nc) := by omega
        have h2 : k ≤ k ∧ k < Nc := ⟨le_refl k, hd⟩
        rw [if_neg h1, if_pos h2, Function.update_same]
      · rw [Function.update_noteq hk]
        by_cases hc : d ≤ k ∧ k < Nc
        · have hc1 : d + 1 ≤ k ∧ k < Nc := by omega
          rw [if_pos hc, if_pos hc1]
        · have hc1 : ¬ (d + 1 ≤ k ∧ k < Nc) := by omega
          rw [if_neg hc, if_neg hc1]
    · have hcond : ¬ (d ≤ k ∧ k < Nc) := by omega
      rw [if_neg hd, if_neg hcond]

/-- C9: for a mesh with `numFields` fields and `0 <= nfield < numFields`,
`createPressureNullSpace` builds a vector `funcs` of length `numFields` that holds `constant`
at index `nfield` and `zero` at every other index, whatever `ofield` is; and for every `Nc`,
`zero` leaves 0 and `constant` leaves 1 in the entries `u[0 .. Nc-1]`, leave every other entry
as it was, and return the code 0. -/
theorem createPressureNullSpace_funcs (dm : DM) (ofield nfield : Int) (h0 : 0 ≤ nfield)
    (h1 : nfield < DMGetNumFields dm) :
    (∃ funcs, createPressureNullSpace dm ofield nfield = .returned funcs ∧
      (funcs.length : Int) = DMGetNumFields dm ∧
      funcs[nfield.toNat]? = some ProjectionFunction.constant ∧
      (∀ j, j < funcs.length → j ≠ nfield.toNat → funcs[j]? = some ProjectionFunction.zero)) ∧
    (∀ ofield2, createPressureNullSpace dm ofield2 nfield =
      createPressureNullSpace dm ofield nfield) ∧
    (∀ (dim Nc : Int) (u : Int → PetscScalar),
      (zero dim Nc u).2 = 0 ∧
      (∀ k, (zero dim Nc u).1 k = if 0 ≤ k ∧ k < Nc then 0 else u k) ∧
      (constant dim Nc u).2 = 0 ∧
      (∀ k, (constant dim Nc u).1 k = if 0 ≤ k ∧ k < Nc then 1 else u k)) := by
  have hn : nfield.toNat < dm.fields.length := by
    unfold DMGetNumFields at h1
    omega
  refine ⟨⟨(List.replicate (DMGetNumFields dm).toNat ProjectionFunction.zero).set nfield.toNat
      ProjectionFunction.constant, ?_, ?_, ?_, ?_⟩, fun _ => rfl, ?_⟩
  · unfold createPressureNullSpace
    rw [if_pos ⟨h0, h1⟩]
  · simp [DMGetNumFields]
  · simp [DMGetNumFields, List.getElem?_set, hn]
  · intro j hj hne
    have hj' : j < dm.fields.length := by simpa [DMGetNumFields] using hj
    simp [DMGetNumFields, List.getElem?_set, List.getElem?_replicate, hj', Ne.symm hne]
  · intro dim Nc u
    refine ⟨rfl, ?_, rfl, ?_⟩
    · intro k
      exact fillLoop_apply 0 Nc Nc.toNat 0 u k (by omega)
    · intro k
      exact fillLoop_apply 1 Nc Nc.toNat 0 u k (by omega)

/-- Witness of C9: the vector built for the second of three fields, and the two callbacks on
three components. -/
theorem createPressureNullSpace_funcs_witness :
    createPressureNullSpace sample.meshWithFields 1 1 =
      .returned [ProjectionFunction.zero, ProjectionFunction.constant, ProjectionFunction.zero] ∧
    (constant 2 3 (fun _ => 7)).1 2 = 1 ∧ (zero 2 3 (fun _ => 7)).1 3 = 7 := by
  have h := createPressureNullSpace_funcs sample.meshWithFields 1 1 (by decide) (by decide)
  refine ⟨by decide, ?_, ?_⟩
  · rw [(h.2.2 2 3 (fun _ => 7)).2.2.2 2]
    decide
  · rw [(h.2.2 2 3 (fun _ => 7)).2.1 3]
    decide

end finiteElement

namespace monitors

open domain

/-! ### `FaceMonitor::Register` -/

theorem Register_of_boundarySolver (filter : DM → Option DMLabel → Int → DM)
    (self : FaceMonitor) (dm : DM) (fieldBoundary : Region) :
    FaceMonitor.Register filter self (some (.boundarySolver dm fieldBoundary)) =
      ({ self with
          solver := some (.boundarySolver dm fieldBoundary)
          faceDM := some
            (FaceMonitor.AddField
              (FaceMonitor.AddField (filter dm (DMGetLabel dm fieldBoundary.name) 1) "regRate" 1)
              "hFlux" self.fluxNum)
          componentNames :=
            self.componentNames ++ [(Cats.regRate, 0, "regRate")] ++
              heatFluxNames "hFlux" self.fluxNum
          sectionName := some "FaceMonitor"
          faceVec := some { name := "faceVec" } }, none) :=
  rfl

theorem Register_of_otherSolver (filter : DM → Option DMLabel → Int → DM)
    (self : FaceMonitor) (dm : DM) :
    FaceMonitor.Register filter self (some (.otherSolver dm)) =
      ({ self with solver := some (.otherSolver dm) },
        some (.invalid_argument "The face monitor can only be used with the boundary solver.")) :=
  rfl

theorem Register_of_null (filter : DM → Option DMLabel → Int → DM) (self : FaceMonitor) :
    FaceMonitor.Register filter self none =
      ({ self with solver := none },
        some (.invalid_argument "The face monitor can only be used with the boundary solver.")) :=
  rfl

/-- C8: `Register` throws exactly when the solver is not a `BoundarySolver`; it then throws
`std::invalid_argument("The face monitor can only be used with the boundary solver.")` and
the face mesh, the face vector, the component names and the section name of the monitor are as
before the call, so a monitor that had created none has created none.  For a boundary solver
it returns with the face mesh filtered from the mesh of the solver, holding the two fields
`regRate` and `hFlux` added last, and with the face vector. -/
theorem Register_boundary_solver_only (filter : DM → Option DMLabel → Int → DM)
    (self : FaceMonitor) (solverIn : Option Solver) :
    ((∃ e, (FaceMonitor.Register filter self solverIn).2 = some e) ↔
      ¬ ∃ dm fieldBoundary, solverIn = some (.boundarySolver dm fieldBoundary)) ∧
    (∀ e, (FaceMonitor.Register filter self solverIn).2 = some e →
      e = .invalid_argument "The face monitor can only be used with the boundary solver." ∧
      (FaceMonitor.Register filter self solverIn).1.faceDM = self.faceDM ∧
      (FaceMonitor.Register filter self solverIn).1.faceVec = self.faceVec ∧
      (FaceMonitor.Register filter self solverIn).1.componentNames = self.componentNames ∧
      (FaceMonitor.Register filter self solverIn).1.sectionName = self.sectionName) ∧
    (∀ dm fieldBoundary, solverIn = some (.boundarySolver dm fieldBoundary) →
      ∃ faceDM, (FaceMonitor.Register filter self solverIn).1.faceDM = some faceDM ∧
        faceDM.fields =
          (filter dm (DMGetLabel dm fieldBoundary.name) 1).fields ++
            [(none, { name := "regRate", numberComponents := 1 }),
             (none, { name := "hFlux", numberComponents := self.fluxNum })] ∧
        (FaceMonitor.Register filter self solverIn).1.faceVec = some { name := "faceVec" }) := by
  rcases solverIn with _ | ⟨dm, fb⟩ | dm
  · rw [Register_of_null]
    refine ⟨⟨fun _ => by simp, fun _ => ⟨_, rfl⟩⟩, ?_, ?_⟩
    · intro e he
      exact ⟨(Option.some.inj he).symm, rfl, rfl, rfl, rfl⟩
    · intro dm fb h
      exact absurd h (by simp)
  · rw [Register_of_boundarySolver]
    refine ⟨⟨fun h => ?_, fun h => absurd ⟨dm, fb, rfl⟩ h⟩, ?_, ?_⟩
    · obtain ⟨e, he⟩ := h
      exact absurd he (by simp)
    · intro e he
      exact absurd he (by simp)
    · intro dm2 fb2 h
      have h := Option.some.inj h
      have hdm : dm = dm2 := (Solver.boundarySolver.inj h).1
      have hfb : fb = fb2 := (Solver.boundarySolver.inj h).2
      subst hdm hfb
      exact ⟨_, rfl, by simp [FaceMonitor.AddField], rfl⟩
  · rw [Register_of_otherSolver]
    refine ⟨⟨fun _ => by simp, fun _ => ⟨_, rfl⟩⟩, ?_, ?_⟩
    · intro e he
      exact ⟨(Option.some.inj he).symm, rfl, rfl, rfl, rfl⟩
    · intro dm2 fb h
      exact absurd h (by simp)

end monitors

end ablate
